import Mathlib

/-!
# philips/endpoint: CORS decision, request normalisation, errors, responses

A shallow embedding of `cors_handler.go`, `endpoints/discovery/api_request.go`, `errors.go`
and `endpoints_server_util.go`.

Conventions of the embedding.

* A Go `string` is a Lean `String`; `len(s)` is the byte length `String.utf8ByteSize`.
* `http.Header` is a finite map from header names to value lists, embedded as a function
  `String → Option (List String)`. `Get` and `Set` are embedded on the key as written: the six
  header-name constants of `cors_handler.go` are already in canonical MIME form, so
  `textproto.CanonicalMIMEHeaderKey` maps each of them to itself.
* Functions of the Go standard library whose behaviour is not part of this repository
  (`strings.ToUpper`, `json.Unmarshal`, `json.Marshal`, `json.MarshalIndent`) are parameters
  of the embedded functions; the theorems hold for every value of these parameters. So are
  the conversion `string(body)` of the bytes of an upstream body, and the status-code table
  `get_error_info`, which is declared outside the sources embedded here.
* A Go map is the list of its entries; where a theorem needs the list to be a map, it asks
  that no key occurs twice.
* A Go function that writes through a pointer returns the new state of what the pointer
  refers to.
-/

namespace Endpoint

/-! ## net/http: headers -/

/-- Go `len` of a string: its length in bytes. -/
def len (s : String) : Nat := s.utf8ByteSize

/-- The type `http.Header`, a `map[string][]string`. -/
abbrev Header := String → Option (List String)

/-- The method `Header.Get`: the first value stored under the key, `""` when there is none. -/
def Header.Get (h : Header) (key : String) : String :=
  match h key with
  | some (v :: _) => v
  | _ => ""

/-- The method `Header.Set`: the key now holds exactly the one value. -/
def Header.Set (h : Header) (key value : String) : Header :=
  fun k => if k = key then some [value] else h k

/-! ## cors_handler.go -/

def CORS_HEADER_ORIGIN : String := "Origin"
def CORS_HEADER_REQUEST_METHOD : String := "Access-Control-Request-Method"
def CORS_HEADER_REQUEST_HEADERS : String := "Access-Control-Request-Headers"
def CORS_HEADER_ALLOW_ORIGIN : String := "Access-Control-Allow-Origin"
def CORS_HEADER_ALLOW_METHODS : String := "Access-Control-Allow-Methods"
def CORS_HEADER_ALLOW_HEADERS : String := "Access-Control-Allow-Headers"

def CorsAllowedMethods : List String := ["DELETE", "GET", "PATCH", "POST", "PUT"]

/-- The struct `checkCorsHeaders`. -/
structure checkCorsHeaders where
  allowCorsRequest : Bool
  origin : String
  corsRequestMethod : String
  corsRequestHeaders : String

/-- The loop `for _, method := range methods { if method == target { in = true; break } }`
of `checkCorsRequest`, started with `in = false`: the final value of `in`. -/
def rangeIn (target : String) : List String → Bool
  | [] => false
  | method :: rest => if method = target then true else rangeIn target rest

/-- The method `checkCorsRequest`, on the header map of the request. `ToUpper` is
`strings.ToUpper`. -/
def checkCorsHeaders.checkCorsRequest (ToUpper : String → String) (c : checkCorsHeaders)
    (requestHeader : Header) : checkCorsHeaders :=
  let c := { c with origin := requestHeader.Get CORS_HEADER_ORIGIN }
  let c := { c with corsRequestMethod := requestHeader.Get CORS_HEADER_REQUEST_METHOD }
  let c := { c with corsRequestHeaders := requestHeader.Get CORS_HEADER_REQUEST_HEADERS }
  let in_ := rangeIn (ToUpper c.corsRequestMethod) CorsAllowedMethods
  if len c.origin > 0 && ((len c.corsRequestMethod == 0) || in_) then
    { c with allowCorsRequest := true }
  else
    c

/-- The constructor `newCheckCorsHeaders`. The fields the Go literal leaves out hold the zero
value `""`. -/
def newCheckCorsHeaders (ToUpper : String → String) (requestHeader : Header) :
    checkCorsHeaders :=
  let c : checkCorsHeaders :=
    { allowCorsRequest := false, origin := "", corsRequestMethod := "",
      corsRequestHeaders := "" }
  c.checkCorsRequest ToUpper requestHeader

/-- The function `strings.Join`. -/
def Join : List String → String → String
  | [], _ => ""
  | [a], _ => a
  | a :: b :: rest, sep => a ++ sep ++ Join (b :: rest) sep

/-- The method `updateHeaders`: the header map after the call. -/
def checkCorsHeaders.updateHeaders (c : checkCorsHeaders) (headers : Header) : Header :=
  if !c.allowCorsRequest then
    headers
  else
    let headers := headers.Set CORS_HEADER_ALLOW_ORIGIN c.origin
    let headers := headers.Set CORS_HEADER_ALLOW_METHODS (Join CorsAllowedMethods ",")
    if len c.corsRequestHeaders != 0 then
      headers.Set CORS_HEADER_ALLOW_HEADERS c.corsRequestHeaders
    else
      headers

/-! ## Go values held in an `interface{}` -/

/-- A Go value stored in an `interface{}`, with its dynamic type. The first six constructors
are the dynamic types `json.Unmarshal` stores into an `interface{}`: `nil`, `bool`, `float64`,
`string`, `[]interface{}` and `map[string]interface{}`. A `float64` is named by the decimal
literal that denotes it, or by `+Inf`, `-Inf` or `NaN`. `JsonObject` is a value of the named type `JsonObject` of
`api_request.go`; `int` and `mapSlice` (a `[]map[string]interface{}`) are the other dynamic
types `errors.go` stores. A map is embedded as the list of its entries. -/
inductive GoValue where
  | nil
  | bool (b : Bool)
  | float64 (literal : String)
  | string (s : String)
  | slice (xs : List GoValue)
  | map (entries : List (String × GoValue))
  | JsonObject (entries : List (String × GoValue))
  | int (n : Int)
  | mapSlice (maps : List (List (String × GoValue)))

/-- The type assertion `v.([]interface{})`: the slice when the dynamic type of `v` is
`[]interface{}`, and `ok = false` otherwise. -/
def GoValue.assertSlice : GoValue → Option (List GoValue)
  | .slice xs => some xs
  | _ => none

/-- The type assertion `v.(JsonObject)`: it holds only when the dynamic type of `v` is the
named type `JsonObject` itself; a `map[string]interface{}` has a different dynamic type. -/
def GoValue.assertJsonObject : GoValue → Option (List (String × GoValue))
  | .JsonObject entries => some entries
  | _ => none

/-- True when the dynamic type of the value, and of every value inside it, is one of the six
that `json.Unmarshal` stores into an `interface{}`. -/
def GoValue.isDecoded : GoValue → Bool
  | .nil => true
  | .bool _ => true
  | .float64 _ => true
  | .string _ => true
  | .slice xs => decodedList xs
  | .map entries => decodedEntries entries
  | .JsonObject _ => false
  | .int _ => false
  | .mapSlice _ => false
where
  decodedList : List GoValue → Bool
    | [] => true
    | x :: xs => x.isDecoded && decodedList xs
  decodedEntries : List (String × GoValue) → Bool
    | [] => true
    | (_, x) :: xs => x.isDecoded && decodedEntries xs

/-- The statement `m[k] = v` on a Go map. -/
def mapSet (m : List (String × GoValue)) (k : String) (v : GoValue) :
    List (String × GoValue) :=
  match m with
  | [] => [(k, v)]
  | (k', v') :: rest => if k' = k then (k, v) :: rest else (k', v') :: mapSet rest k v

/-- The index expression `v, ok := m[k]` on a Go map: `none` when `ok` is false. -/
def mapGet (m : List (String × GoValue)) (k : String) : Option GoValue :=
  match m with
  | [] => none
  | (k', v') :: rest => if k' = k then some v' else mapGet rest k

/-- A map composite literal with keys that are not constants: the entries are stored one
after the other in source order, so of two entries with equal keys the later one stays. -/
def mapLiteral (entries : List (String × GoValue)) : List (String × GoValue) :=
  entries.foldl (fun m kv => mapSet m kv.1 kv.2) []

/-! ## net/http: requests -/

/-- The body stream of a request (an `io.ReadCloser`): the bytes not yet read, and whether the
stream ends in a read error instead of `io.EOF`. -/
structure Body where
  unread : List UInt8
  fault : Bool

/-- The function `ioutil.ReadAll`: the stream after the call, the bytes read, and whether
`err != nil`. -/
def ReadAll (b : Body) : Body × List UInt8 × Bool :=
  ({ unread := [], fault := b.fault }, b.unread, b.fault)

/-- The fields of an `http.Request` that the repository reads or writes: `Header`, `URL.Path`
and `Body`. -/
structure Request where
  Header : Header
  Path : String
  Body : Body

/-- The function `strings.HasPrefix`. -/
def HasPrefix (s pre : String) : Bool := pre.data.isPrefixOf s.data

/-- The slice expression `s[n:]` for an `n` that ends an ASCII prefix of `s`: the `n` bytes
dropped are `n` characters. -/
def sliceFrom (s : String) (n : Nat) : String := ⟨s.data.drop n⟩

/-! ## endpoints/discovery/api_request.go -/

def _API_PREFIX : String := "/_ah/api/"

/-- The type `JsonObject`, a named type over `map[string]interface{}`. -/
abbrev JsonObject := List (String × GoValue)

/-- The struct `ApiRequest`. Its embedded `*http.Request` is the pointer given to
`newApiRequest`; the state of that request is threaded next to the struct. -/
structure ApiRequest where
  is_batch : Bool
  body_json : JsonObject
  request_id : String

/-- The errors `newApiRequest` returns, each with the operand of its format string. -/
inductive ApiError where
  | invalidPath (path : String)
  | readBody
  | unmarshalBody (body : List UInt8)
  | emptyBatch
  | bodyNotMap (body_json : GoValue)
  | marshal (msg : String)

/-- The format string (or fixed message) of each error, as written in `newApiRequest`; the
error of `json.Marshal` carries its own message. -/
def ApiError.format : ApiError → String
  | .invalidPath _ => "Invalid request path: %s"
  | .readBody => "Problem parsing request body: %s"
  | .unmarshalBody _ => "Problem unmarshalling request body: %s"
  | .emptyBatch => "Batch request has zero parts"
  | .bodyNotMap _ => "JSON request body must be a map: %s"
  | .marshal msg => msg

/-- The lines `newApiRequest` writes to the log. -/
inductive LogLine where
  | moreThanOneElement (n : Nat)
  | convertingBatch

/-- What a call of `newApiRequest(r)` leaves behind: the state of `*r`, the lines logged, and
the two return values. -/
structure Outcome where
  request : Request
  log : List LogLine
  ar : Option ApiRequest
  err : Option ApiError

/-- The function `newApiRequest`. `Unmarshal body` is `json.Unmarshal(body, &body_json)` for a
`body_json` of type `interface{}`: `none` when it returns an error, the value stored
otherwise. `Marshal` is `json.Marshal` on a `JsonObject`. -/
def newApiRequest (Unmarshal : List UInt8 → Option GoValue)
    (Marshal : JsonObject → Except String (List UInt8)) (r : Request) : Outcome :=
  if !HasPrefix r.Path _API_PREFIX then
    { request := r, log := [], ar := none, err := some (.invalidPath r.Path) }
  else
    let r := { r with Path := sliceFrom r.Path _API_PREFIX.length }
    let (stream, body, readErr) := ReadAll r.Body
    let r := { r with Body := stream }
    if readErr then
      { request := r, log := [], ar := none, err := some .readBody }
    else
      let decoded : Option GoValue :=
        if body.length > 0 then Unmarshal body else some (.JsonObject [])
      match decoded with
      | none => { request := r, log := [], ar := none, err := some (.unmarshalBody body) }
      | some body_json =>
        let request_id := ""
        match body_json.assertSlice with
        | some body_json_array =>
          match body_json_array with
          | [] => { request := r, log := [], ar := none, err := some .emptyBatch }
          | first :: rest =>
            let log : List LogLine :=
              (match rest with
                | [] => []
                | _ :: _ => [.moreThanOneElement body_json_array.length])
                ++ [.convertingBatch]
            let body_json := first
            match body_json.assertJsonObject with
            | none => { request := r, log := log, ar := none, err := some (.bodyNotMap body_json) }
            | some obj =>
              match Marshal obj with
              | .error msg =>
                let r := { r with Body := { unread := [], fault := false } }
                { request := r, log := log,
                  ar := some { is_batch := false, body_json := obj, request_id := request_id },
                  err := some (.marshal msg) }
              | .ok body_bytes =>
                let r := { r with Body := { unread := body_bytes, fault := false } }
                { request := r, log := log,
                  ar := some { is_batch := true, body_json := obj, request_id := request_id },
                  err := none }
        | none =>
          match body_json.assertJsonObject with
          | none => { request := r, log := [], ar := none, err := some (.bodyNotMap body_json) }
          | some obj =>
            { request := r, log := [],
              ar := some { is_batch := false, body_json := obj, request_id := request_id },
              err := none }

/-- The method `copy`: `newApiRequest` on the embedded request, the error dropped. `request`
is the state of the request `ar.Request` points to. -/
def ApiRequest.copy (Unmarshal : List UInt8 → Option GoValue)
    (Marshal : JsonObject → Except String (List UInt8)) (_ar : ApiRequest)
    (request : Request) : Request × List LogLine × Option ApiRequest :=
  let out := newApiRequest Unmarshal Marshal request
  (out.request, out.log, out.ar)

/-- The method `is_rpc`. -/
def ApiRequest.is_rpc (_ar : ApiRequest) (request : Request) : Bool :=
  request.Path = "rpc"

/-! ## errors.go -/

/-- The struct `BaseRequestError`. `ExtraFields` is a `map[string]interface{}`, embedded as the
list of its entries; a nil map is the empty list. -/
structure BaseRequestError where
  StatusCode : Int
  Message : String
  Reason : String
  Domain : String
  ExtraFields : List (String × GoValue)

/-- The method `status_code`. -/
def BaseRequestError.status_code (re : BaseRequestError) : Int := re.StatusCode

/-- The method `Error`. -/
def BaseRequestError.Error (re : BaseRequestError) : String := re.Message

/-- The local map `error` of `format_error` when the method returns: the literal with the
three base fields, then `error[k] = v` for every entry of `ExtraFields`. `range` visits the
entries of a map in an unspecified order; the list is walked from its head. -/
def BaseRequestError.errorEntry (err : BaseRequestError) : List (String × GoValue) :=
  err.ExtraFields.foldl (fun error kv => mapSet error kv.1 kv.2)
    [("domain", .string err.Domain), ("reason", .string err.Reason),
      ("message", .string err.Message)]

/-- The method `format_error`. -/
def BaseRequestError.format_error (err : BaseRequestError) (error_list_tag : String) :
    List (String × GoValue) :=
  [("error", .map (mapLiteral
    [(error_list_tag, .mapSlice [err.errorEntry]),
      ("code", .int err.StatusCode),
      ("message", .string err.Message)]))]

/-- The method `rest_error`. `MarshalIndent v` is the text of
`json.MarshalIndent(v, "", "  ")`; the method drops the error, and the text of the nil slice
it then converts is empty. -/
def BaseRequestError.rest_error (MarshalIndent : GoValue → Except String String)
    (err : BaseRequestError) : String :=
  match MarshalIndent (.map (err.format_error "errors")) with
  | .ok rest => rest
  | .error _ => ""

/-- The method `rpc_error`. -/
def BaseRequestError.rpc_error (err : BaseRequestError) : List (String × GoValue) :=
  err.format_error "data"

/-- The struct `EnumRejectionError`, which embeds `BaseRequestError`. -/
structure EnumRejectionError extends BaseRequestError where
  parameter_name : String
  value : String
  allowed_values : List String

/-- The text `fmt` writes for a `[]string` under the verb `%v`: the elements separated by
spaces, in square brackets. -/
def formatStrings (a : List String) : String := "[" ++ Join a " " ++ "]"

/-- The constructor `NewEnumRejectionError`. The literal leaves `Domain` out, which so holds
the zero value `""`. -/
def NewEnumRejectionError (parameter_name value : String) (allowed_values : List String) :
    EnumRejectionError :=
  { StatusCode := 400
    Message := "Invalid string value: " ++ value ++ ". Allowed values: "
      ++ formatStrings allowed_values
    Reason := "invalidParameter"
    Domain := ""
    ExtraFields := [("locationType", .string "parameter"), ("location", .string parameter_name)]
    parameter_name := parameter_name
    value := value
    allowed_values := allowed_values }

/-- Modelled from the spec: the struct `ErrorInfo`, which is declared outside these sources.
Its fields are the three `NewBackendError` reads: the HTTP status, the reason and the domain
the status-code table gives. -/
structure ErrorInfo where
  http_status : Int
  reason : String
  domain : String

/-- The struct `BackendError`, which embeds `BaseRequestError`. -/
structure BackendError extends BaseRequestError where
  errorInfo : ErrorInfo

/-- The fields of an `http.Response` that `NewBackendError` reads. -/
structure Response where
  StatusCode : Int
  Body : Body

/-- The constructor `NewBackendError`: the response after the call (its body stream read) and
the error built. `get_error_info` is the lookup in the status-code table, declared outside
these sources. `Unmarshal body` is `json.Unmarshal(body, &error_json)` for an `error_json` of
type `map[string]interface{}`: `none` when it returns an error, the entries of the map
otherwise (none for a nil map). `toText body` is the conversion `string(body)`. The error of
`ioutil.ReadAll` is dropped. -/
def NewBackendError (get_error_info : Int → ErrorInfo)
    (Unmarshal : List UInt8 → Option (List (String × GoValue)))
    (toText : List UInt8 → String) (response : Response) : Response × BackendError :=
  let error_info := get_error_info response.StatusCode
  let (stream, body, _) := ReadAll response.Body
  let message : String :=
    match Unmarshal body with
    | some error_json =>
      match mapGet error_json "error_message" with
      | some _message =>
        match _message with
        | .string m => m
        | _ => toText body
      | none => toText body
    | none => toText body
  ({ response with Body := stream },
    { StatusCode := error_info.http_status
      Message := message
      Reason := error_info.reason
      Domain := error_info.domain
      ExtraFields := []
      errorInfo := error_info })

/-! ## endpoints_server_util.go -/

/-- An `http.ResponseWriter` that records what is written to it: the header map, the status
code once the header is written, and the text of the body written so far. -/
structure ResponseWriter where
  Header : Header
  status : Option Nat
  body : String

/-- The method `WriteHeader`: the first call fixes the status code, a later call changes
nothing. -/
def ResponseWriter.WriteHeader (w : ResponseWriter) (code : Nat) : ResponseWriter :=
  match w.status with
  | some _ => w
  | none => { w with status := some code }

/-- The method `Write`, called by `fmt.Fprint(w, text)`: the header is written with status 200
if it has not been written, and the text follows the body. -/
def ResponseWriter.Write (w : ResponseWriter) (text : String) : ResponseWriter :=
  let w := w.WriteHeader 200
  { w with body := w.body ++ text }

/-- The interface `corsHandler`: nil, or a value with a method `updateHeaders` on a header
map. -/
abbrev corsHandler := Option (Header → Header)

/-- The header map of `w` after `if corsHandler != nil { corsHandler.updateHeaders(w.Header()) }`. -/
def applyCorsHandler (w : ResponseWriter) (handler : corsHandler) : ResponseWriter :=
  match handler with
  | some updateHeaders => { w with Header := updateHeaders w.Header }
  | none => w

/-- The text `fmt.Sprintf("%d", n)` for a length `n`: its decimal digits. -/
def formatLength (n : Nat) : String := Nat.repr n

/-- The function `sendNotFoundResponse`: the writer after the call and the string returned. -/
def sendNotFoundResponse (w : ResponseWriter) (handler : corsHandler) :
    ResponseWriter × String :=
  let w := applyCorsHandler w handler
  let body := "Not Found"
  let w := { w with Header := w.Header.Set "Content-Type" "text/plain" }
  let w := { w with Header := w.Header.Set "Content-Length" (formatLength (len body)) }
  let w := w.WriteHeader 404
  let w := w.Write body
  (w, body)

/-- The text `string(bodyBytes)` after `bodyBytes, _ := json.Marshal(v)`. `Marshal v` is the
text `json.Marshal` writes; when it returns an error the slice is nil and the text empty. -/
def marshalText (Marshal : GoValue → Except String String) (v : GoValue) : String :=
  match Marshal v with
  | .ok text => text
  | .error _ => ""

/-- The function `sendErrorResponse`: the writer after the call and the string returned. -/
def sendErrorResponse (Marshal : GoValue → Except String String) (message : String)
    (w : ResponseWriter) (handler : corsHandler) : ResponseWriter × String :=
  let bodyMap : GoValue := .map [("error", .map [("message", .string message)])]
  let body := marshalText Marshal bodyMap
  let w := applyCorsHandler w handler
  let w := { w with Header := w.Header.Set "Content-Type" "application/json" }
  let w := { w with Header := w.Header.Set "Content-Length" (formatLength (len body)) }
  let w := w.WriteHeader 500
  let w := w.Write body
  (w, body)

/-- The function `sendRejectedResponse`: the writer after the call and the string returned. -/
def sendRejectedResponse (Marshal : GoValue → Except String String)
    (rejectionError : List (String × GoValue)) (w : ResponseWriter) (handler : corsHandler) :
    ResponseWriter × String :=
  let body := marshalText Marshal (.map rejectionError)
  let w := applyCorsHandler w handler
  let w := { w with Header := w.Header.Set "Content-Type" "application/json" }
  let w := { w with Header := w.Header.Set "Content-Length" (formatLength (len body)) }
  let w := w.WriteHeader 400
  let w := w.Write body
  (w, body)

/-! ## Instances of the library parameters

The theorems below hold for every `ToUpper`, `Unmarshal` and `Marshal`. To run the embedded
functions on concrete requests the parameters are instantiated with the following functions,
which implement the library functions on ASCII text: `asciiToUpper` is `strings.ToUpper` on
ASCII strings, `decodeJson` is `json.Unmarshal` into an `interface{}` on JSON texts whose
strings are printable ASCII without `\u` escapes (other texts are rejected), and `encodeJson`
writes such values back with the keys of a map in sorted order. `decodeJsonMap` is
`json.Unmarshal` into a `map[string]interface{}`, `encodeText` the text of `json.Marshal` on
any value, `encodeIndent` the text of `json.MarshalIndent`, and `asciiString` the conversion
`string(body)` on ASCII bytes.
-/

/-- The function `strings.ToUpper` on ASCII strings. -/
def asciiToUpper (s : String) : String := ⟨s.data.map Char.toUpper⟩

/-- The bytes of an ASCII string. -/
def asciiBytes (s : String) : List UInt8 := s.data.map (fun c => c.toNat.toUInt8)

/-- The ASCII string of a list of bytes. -/
def asciiString (bs : List UInt8) : String := ⟨bs.map (fun b => Char.ofNat b.toNat)⟩

def isSpace (b : UInt8) : Bool := b = 0x20 || b = 0x09 || b = 0x0A || b = 0x0D

def skipSpace : List UInt8 → List UInt8
  | [] => []
  | b :: rest => if isSpace b then skipSpace rest else b :: rest

def isDigit (b : UInt8) : Bool := decide (0x30 ≤ b) && decide (b ≤ 0x39)

/-- The longest run of digits at the head of the input, and what follows it. -/
def spanDigits : List UInt8 → List UInt8 × List UInt8
  | [] => ([], [])
  | b :: rest =>
    if isDigit b then ((b :: (spanDigits rest).1), (spanDigits rest).2) else ([], b :: rest)

/-- The optional fraction of a number literal: `.` and digits. -/
def scanFraction (input : List UInt8) : Option (List UInt8 × List UInt8) :=
  match input with
  | b :: rest =>
    if b = 0x2E then
      match spanDigits rest with
      | ([], _) => none
      | (ds, tl) => some (b :: ds, tl)
    else some ([], input)
  | [] => some ([], input)

/-- The optional exponent of a number literal: `e` or `E`, a sign, digits. -/
def scanExponent (input : List UInt8) : Option (List UInt8 × List UInt8) :=
  match input with
  | b :: rest =>
    if b = 0x65 || b = 0x45 then
      let (sign, rest) : List UInt8 × List UInt8 :=
        match rest with
        | c :: tl => if c = 0x2B || c = 0x2D then ([c], tl) else ([], rest)
        | [] => ([], rest)
      match spanDigits rest with
      | ([], _) => none
      | (ds, tl) => some (b :: sign ++ ds, tl)
    else some ([], input)
  | [] => some ([], input)

/-- A JSON number literal at the head of the input: the literal and what follows it. -/
def scanNumber (input : List UInt8) : Option (List UInt8 × List UInt8) :=
  let (sign, rest) : List UInt8 × List UInt8 :=
    match input with
    | b :: tl => if b = 0x2D then ([b], tl) else ([], input)
    | [] => ([], input)
  match spanDigits rest with
  | ([], _) => none
  | (d :: ds, tl) =>
    if d = 0x30 && !ds.isEmpty then none
    else
      match scanFraction tl with
      | none => none
      | some (frac, tl) =>
        match scanExponent tl with
        | none => none
        | some (exp, tl) => some (sign ++ d :: ds ++ frac ++ exp, tl)

/-- The character a two-byte escape `\c` stands for. -/
def unescape (c : UInt8) : Option Char :=
  if c = 0x22 then some '"'
  else if c = 0x5C then some '\\'
  else if c = 0x2F then some '/'
  else if c = 0x62 then some (Char.ofNat 8)
  else if c = 0x66 then some (Char.ofNat 12)
  else if c = 0x6E then some '\n'
  else if c = 0x72 then some '\r'
  else if c = 0x74 then some '\t'
  else none

/-- The characters of a JSON string whose opening quote has been read, and what follows the
closing quote. -/
def scanString : List UInt8 → Option (List Char × List UInt8)
  | [] => none
  | [b] => if b = 0x22 then some ([], []) else none
  | b :: c :: rest =>
    if b = 0x22 then some ([], c :: rest)
    else if b = 0x5C then
      match unescape c, scanString rest with
      | some ch, some (cs, tl) => some (ch :: cs, tl)
      | _, _ => none
    else if decide (0x20 ≤ b) && decide (b < 0x80) then
      match scanString (c :: rest) with
      | some (cs, tl) => some (Char.ofNat b.toNat :: cs, tl)
      | none => none
    else none

/-- Strips `word` from the head of the input. -/
def stripWord (word input : List UInt8) : Option (List UInt8) :=
  if word.isPrefixOf input then some (input.drop word.length) else none

mutual
/-- One JSON value at the head of the input, and what follows it. -/
def decodeValue : Nat → List UInt8 → Option (GoValue × List UInt8)
  | 0, _ => none
  | fuel + 1, input =>
    match skipSpace input with
    | [] => none
    | b :: rest =>
      if b = 0x7B then
        match skipSpace rest with
        | [] => none
        | c :: tl => if c = 0x7D then some (.map [], tl) else decodeMembers fuel [] (c :: tl)
      else if b = 0x5B then
        match skipSpace rest with
        | [] => none
        | c :: tl => if c = 0x5D then some (.slice [], tl) else decodeElements fuel [] (c :: tl)
      else if b = 0x22 then
        match scanString rest with
        | some (cs, tl) => some (.string ⟨cs⟩, tl)
        | none => none
      else if b = 0x6E then (stripWord [0x75, 0x6C, 0x6C] rest).map (fun tl => (.nil, tl))
      else if b = 0x74 then
        (stripWord [0x72, 0x75, 0x65] rest).map (fun tl => (.bool true, tl))
      else if b = 0x66 then
        (stripWord [0x61, 0x6C, 0x73, 0x65] rest).map (fun tl => (.bool false, tl))
      else
        match scanNumber (b :: rest) with
        | some (lit, tl) => some (.float64 (asciiString lit), tl)
        | none => none
/-- The elements of an array after `[`, up to and including `]`. -/
def decodeElements : Nat → List GoValue → List UInt8 → Option (GoValue × List UInt8)
  | 0, _, _ => none
  | fuel + 1, acc, input =>
    match decodeValue fuel input with
    | none => none
    | some (v, tl) =>
      match skipSpace tl with
      | [] => none
      | c :: tl =>
        if c = 0x2C then decodeElements fuel (acc ++ [v]) tl
        else if c = 0x5D then some (.slice (acc ++ [v]), tl)
        else none
/-- The members of an object after `{`, up to and including `}`. -/
def decodeMembers : Nat → List (String × GoValue) → List UInt8 →
    Option (GoValue × List UInt8)
  | 0, _, _ => none
  | fuel + 1, acc, input =>
    match skipSpace input with
    | [] => none
    | q :: rest =>
      if q = 0x22 then
        match scanString rest with
        | none => none
        | some (key, tl) =>
          match skipSpace tl with
          | [] => none
          | colon :: tl =>
            if colon = 0x3A then
              match decodeValue fuel tl with
              | none => none
              | some (v, tl) =>
                match skipSpace tl with
                | [] => none
                | c :: tl =>
                  if c = 0x2C then decodeMembers fuel (mapSet acc ⟨key⟩ v) tl
                  else if c = 0x7D then some (.map (mapSet acc ⟨key⟩ v), tl)
                  else none
            else none
      else none
end

/-- An instance of `json.Unmarshal` into an `interface{}`: the value of the JSON text, `none`
when the text is not (in the supported fragment of) JSON. -/
def decodeJson (body : List UInt8) : Option GoValue :=
  match decodeValue (body.length + 1) body with
  | some (v, rest) => if (skipSpace rest).isEmpty then some v else none
  | none => none

/-- The order of map keys in the output of `json.Marshal`: `a` comes strictly before `b`. -/
def keyLess : List Char → List Char → Bool
  | _, [] => false
  | [], _ :: _ => true
  | a :: as, b :: bs =>
    if a.toNat < b.toNat then true else if b.toNat < a.toNat then false else keyLess as bs

/-- The entries of a map with `(k, v)` put in key order. -/
def insertSorted (k : String) (v : GoValue) :
    List (String × GoValue) → List (String × GoValue)
  | [] => [(k, v)]
  | (k', v') :: rest =>
    if keyLess k.data k'.data then (k, v) :: (k', v') :: rest
    else (k', v') :: insertSorted k v rest

/-- A JSON string literal for an ASCII string. -/
def encodeString (s : String) : List UInt8 :=
  [0x22] ++ (asciiBytes s).flatMap (fun b =>
    if b = 0x22 then [0x5C, 0x22]
    else if b = 0x5C then [0x5C, 0x5C]
    else if b = 0x0A then [0x5C, 0x6E]
    else if b = 0x0D then [0x5C, 0x72]
    else if b = 0x09 then [0x5C, 0x74]
    else [b]) ++ [0x22]

/-- The items of a list separated by commas. -/
def commaJoin : List (List UInt8) → List UInt8
  | [] => []
  | [a] => a
  | a :: b :: rest => a ++ [0x2C] ++ commaJoin (b :: rest)

mutual
def encodeValue : Nat → GoValue → List UInt8
  | 0, _ => []
  | _ + 1, .nil => [0x6E, 0x75, 0x6C, 0x6C]
  | _ + 1, .bool true => [0x74, 0x72, 0x75, 0x65]
  | _ + 1, .bool false => [0x66, 0x61, 0x6C, 0x73, 0x65]
  | _ + 1, .float64 lit => asciiBytes lit
  | _ + 1, .string s => encodeString s
  | fuel + 1, .slice xs => [0x5B] ++ commaJoin (xs.map (encodeValue fuel)) ++ [0x5D]
  | fuel + 1, .map entries => encodeEntries fuel entries
  | fuel + 1, .JsonObject entries => encodeEntries fuel entries
  | _ + 1, .int n => asciiBytes (toString n)
  | fuel + 1, .mapSlice maps =>
    [0x5B] ++ commaJoin (maps.map (encodeEntries fuel)) ++ [0x5D]
def encodeEntries : Nat → List (String × GoValue) → List UInt8
  | 0, _ => []
  | fuel + 1, entries =>
    [0x7B] ++ commaJoin
      ((entries.foldr (fun kv acc => insertSorted kv.1 kv.2 acc) []).map
        (fun kv => encodeString kv.1 ++ [0x3A] ++ encodeValue fuel kv.2)) ++ [0x7D]
end

/-- The nesting depth of a value. -/
def GoValue.depth : GoValue → Nat
  | .slice xs => 1 + depthList xs
  | .map entries => 1 + depthEntries entries
  | .JsonObject entries => 1 + depthEntries entries
  | .mapSlice maps => 2 + depthMaps maps
  | _ => 1
where
  depthList : List GoValue → Nat
    | [] => 0
    | x :: xs => max x.depth (depthList xs)
  depthEntries : List (String × GoValue) → Nat
    | [] => 0
    | (_, x) :: xs => max x.depth (depthEntries xs)
  depthMaps : List (List (String × GoValue)) → Nat
    | [] => 0
    | m :: ms => max (depthEntries m) (depthMaps ms)

/-- True when the string is a JSON number literal, which names a finite `float64`. -/
def isNumberLiteral (literal : String) : Bool :=
  match scanNumber (asciiBytes literal) with
  | some (_, []) => true
  | _ => false

/-- True when `json.Marshal` supports the value: every `float64` in it is finite. -/
def GoValue.isSupported : GoValue → Bool
  | .float64 literal => isNumberLiteral literal
  | .slice xs => supportedList xs
  | .map entries => supportedEntries entries
  | .JsonObject entries => supportedEntries entries
  | .mapSlice maps => supportedMaps maps
  | _ => true
where
  supportedList : List GoValue → Bool
    | [] => true
    | x :: xs => x.isSupported && supportedList xs
  supportedEntries : List (String × GoValue) → Bool
    | [] => true
    | (_, x) :: xs => x.isSupported && supportedEntries xs
  supportedMaps : List (List (String × GoValue)) → Bool
    | [] => true
    | m :: ms => supportedEntries m && supportedMaps ms

/-- An instance of `json.Marshal` on a `JsonObject`. -/
def encodeJson (obj : JsonObject) : Except String (List UInt8) :=
  if GoValue.isSupported (.JsonObject obj) then
    .ok (encodeEntries (2 * GoValue.depth (.JsonObject obj) + 1) obj)
  else
    .error "json: unsupported value"

/-- An instance of `json.Unmarshal` into a `map[string]interface{}`: the entries of a JSON
object, no entry for `null` (which leaves the map nil), an error for every other text. -/
def decodeJsonMap (body : List UInt8) : Option (List (String × GoValue)) :=
  match decodeJson body with
  | some (.map entries) => some entries
  | some .nil => some []
  | _ => none

/-- An instance of the text of `json.Marshal` on a value: an error for a value that holds a
`float64` which is not finite. -/
def encodeText (v : GoValue) : Except String String :=
  if v.isSupported then
    .ok (asciiString (encodeValue (2 * v.depth + 1) v))
  else
    .error "json: unsupported value"

/-- A line break followed by the indentation of the given nesting level, two spaces a
level. -/
def lineBreak (level : Nat) : List UInt8 := 0x0A :: List.replicate (2 * level) 0x20

/-- The items separated by `sep`. -/
def joinItems (sep : List UInt8) : List (List UInt8) → List UInt8
  | [] => []
  | [a] => a
  | a :: b :: rest => a ++ sep ++ joinItems sep (b :: rest)

/-- The items of an array or object at the given nesting level, one on a line, between the
two brackets; no line for an empty one. -/
def indentItems (level : Nat) (opening closing : UInt8) (items : List (List UInt8)) :
    List UInt8 :=
  match items with
  | [] => [opening, closing]
  | _ :: _ =>
    [opening] ++ lineBreak (level + 1) ++ joinItems (0x2C :: lineBreak (level + 1)) items
      ++ lineBreak level ++ [closing]

mutual
def indentValue : Nat → Nat → GoValue → List UInt8
  | 0, _, _ => []
  | fuel + 1, level, .slice xs =>
    indentItems level 0x5B 0x5D (xs.map (indentValue fuel (level + 1)))
  | fuel + 1, level, .mapSlice maps =>
    indentItems level 0x5B 0x5D (maps.map (indentEntries fuel (level + 1)))
  | fuel + 1, level, .map entries => indentEntries fuel level entries
  | fuel + 1, level, .JsonObject entries => indentEntries fuel level entries
  | fuel + 1, _, v => encodeValue (fuel + 1) v
def indentEntries : Nat → Nat → List (String × GoValue) → List UInt8
  | 0, _, _ => []
  | fuel + 1, level, entries =>
    indentItems level 0x7B 0x7D
      ((entries.foldr (fun kv acc => insertSorted kv.1 kv.2 acc) []).map
        (fun kv => encodeString kv.1 ++ [0x3A, 0x20] ++ indentValue fuel (level + 1) kv.2))
end

/-- An instance of the text of `json.MarshalIndent(v, "", "  ")`. -/
def encodeIndent (v : GoValue) : Except String String :=
  if v.isSupported then
    .ok (asciiString (indentValue (2 * v.depth + 1) 0 v))
  else
    .error "json: unsupported value"

/-! ## Concrete requests -/

/-- The headers of a cross-origin request that asks for method `post` and header `X-Token`. -/
def sampleCorsHeader : Header :=
  ((Header.Set (fun _ => none) "Origin" "http://localhost:8080").Set
    "Access-Control-Request-Method" "post").Set "Access-Control-Request-Headers" "X-Token"

/-- A request without headers, with the given path and a body stream that delivers the given
ASCII text and then ends. -/
def sampleRequest (path text : String) : Request :=
  { Header := fun _ => none, Path := path, Body := { unread := asciiBytes text, fault := false } }

/-- An error whose extra fields have the key `domain`. -/
def sampleError : BaseRequestError :=
  { StatusCode := 400, Message := "boom", Reason := "badRequest", Domain := "global",
    ExtraFields := [("domain", .string "usageLimits")] }

/-- A response with the given status code and a body stream that delivers the given ASCII
text and then ends. -/
def sampleResponse (code : Int) (text : String) : Response :=
  { StatusCode := code, Body := { unread := asciiBytes text, fault := false } }

/-- A status-code table with the same entry for every status. -/
def sampleErrorInfo (_code : Int) : ErrorInfo :=
  { http_status := 503, reason := "backendError", domain := "global" }

/-- A handler, other than `checkCorsHeaders`, that sets the content type and length itself. -/
def sampleHandler : corsHandler :=
  some (fun h => (h.Set "Content-Type" "text/html").Set "Content-Length" "0")

/-- A response writer to which nothing has been written, with the given header map. -/
def freshWriter (h : Header) : ResponseWriter := { Header := h, status := none, body := "" }

/-! ## Lemmas on the embedding -/

theorem utf8ByteSize_go_eq_zero : ∀ cs : List Char, String.utf8ByteSize.go cs = 0 ↔ cs = []
  | [] => by simp [String.utf8ByteSize.go]
  | c :: cs => by
      have := Char.utf8Size_pos c
      simp [String.utf8ByteSize.go]
      omega

theorem len_eq_zero_iff (s : String) : len s = 0 ↔ s = "" := by
  cases s with
  | mk cs =>
    simp only [len, String.utf8ByteSize, utf8ByteSize_go_eq_zero]
    constructor
    · intro h; subst h; rfl
    · intro h; exact congrArg String.data h

theorem rangeIn_iff (target : String) (l : List String) :
    rangeIn target l = true ↔ target ∈ l := by
  induction l with
  | nil => simp [rangeIn]
  | cons a rest ih =>
    by_cases h : a = target
    · simp [rangeIn, h]
    · have h' : ¬ target = a := fun e => h e.symm
      simp [rangeIn, h, h', ih]

theorem hasPrefix_iff (s pre : String) : HasPrefix s pre = true ↔ ∃ p : String, s = pre ++ p := by
  unfold HasPrefix
  rw [List.isPrefixOf_iff_prefix]
  constructor
  · rintro ⟨t, ht⟩
    exact ⟨⟨t⟩, String.ext (by simp [String.data_append, ht])⟩
  · rintro ⟨p, rfl⟩
    exact ⟨p.data, by simp [String.data_append]⟩

theorem sliceFrom_append (pre p : String) : sliceFrom (pre ++ p) pre.length = p := by
  apply String.ext
  show (pre ++ p).data.drop pre.data.length = p.data
  rw [String.data_append, List.drop_left]

theorem join_CorsAllowedMethods : Join CorsAllowedMethods "," = "DELETE,GET,PATCH,POST,PUT" := by
  decide

/-! ## CORS decision (`cors_handler.go`) -/

/-- C1. For every request header map and every `strings.ToUpper`, the decision computed by
`newCheckCorsHeaders` allows the request exactly when the `Origin` value is non-empty and the
`Access-Control-Request-Method` value is empty or has an upper-case form among DELETE, GET,
PATCH, POST, PUT; and the decision is the same whatever value
`Access-Control-Request-Headers` is set to. -/
theorem newCheckCorsHeaders_allow_iff (ToUpper : String → String) (h : Header) :
    ((newCheckCorsHeaders ToUpper h).allowCorsRequest = true ↔
      (h.Get "Origin" ≠ "" ∧
        (h.Get "Access-Control-Request-Method" = "" ∨
          ToUpper (h.Get "Access-Control-Request-Method") ∈
            ["DELETE", "GET", "PATCH", "POST", "PUT"]))) ∧
    ∀ v : String,
      (newCheckCorsHeaders ToUpper (h.Set "Access-Control-Request-Headers" v)).allowCorsRequest
        = (newCheckCorsHeaders ToUpper h).allowCorsRequest := by
  have key : ∀ g : Header, (newCheckCorsHeaders ToUpper g).allowCorsRequest =
      (decide (len (g.Get "Origin") > 0) &&
        ((len (g.Get "Access-Control-Request-Method") == 0) ||
          rangeIn (ToUpper (g.Get "Access-Control-Request-Method")) CorsAllowedMethods)) := by
    intro g
    simp only [newCheckCorsHeaders, checkCorsHeaders.checkCorsRequest, CORS_HEADER_ORIGIN,
      CORS_HEADER_REQUEST_METHOD]
    split <;> simp_all
  constructor
  · rw [key]
    simp only [Bool.and_eq_true, Bool.or_eq_true, decide_eq_true_eq, beq_iff_eq, rangeIn_iff,
      len_eq_zero_iff, CorsAllowedMethods, Nat.pos_iff_ne_zero, ne_eq]
  · intro v
    have hO : (h.Set "Access-Control-Request-Headers" v).Get "Origin" = h.Get "Origin" := by
      simp [Header.Get, Header.Set]
    have hM : (h.Set "Access-Control-Request-Headers" v).Get "Access-Control-Request-Method"
        = h.Get "Access-Control-Request-Method" := by
      simp [Header.Get, Header.Set]
    rw [key, key, hO, hM]

/-- C2. A decision with `allowCorsRequest = false` leaves every header map as it was. -/
theorem updateHeaders_disallowed (c : checkCorsHeaders) (H : Header)
    (h : c.allowCorsRequest = false) : c.updateHeaders H = H := by
  simp [checkCorsHeaders.updateHeaders, h]

/-- C2, on the decision for a request without `Origin` and a response that already has a
`Content-Type`. -/
theorem updateHeaders_disallowed_witness :
    (newCheckCorsHeaders asciiToUpper (fun _ => none)).allowCorsRequest = false ∧
    (newCheckCorsHeaders asciiToUpper (fun _ => none)).updateHeaders
        (Header.Set (fun _ => none) "Content-Type" "text/plain")
      = Header.Set (fun _ => none) "Content-Type" "text/plain" :=
  ⟨by decide, updateHeaders_disallowed _ _ (by decide)⟩

/-- C3. After `updateHeaders` of a decision with `allowCorsRequest = true`, the header map
holds exactly the decision's origin under `Access-Control-Allow-Origin` and exactly
`DELETE,GET,PATCH,POST,PUT` under `Access-Control-Allow-Methods`; under
`Access-Control-Allow-Headers` it holds exactly the requested-headers string when that string
is non-empty, and what the map held before (a value list or nothing) when it is empty. -/
theorem updateHeaders_allowed (c : checkCorsHeaders) (H : Header)
    (h : c.allowCorsRequest = true) :
    (c.updateHeaders H) "Access-Control-Allow-Origin" = some [c.origin] ∧
    (c.updateHeaders H) "Access-Control-Allow-Methods" = some ["DELETE,GET,PATCH,POST,PUT"] ∧
    (c.corsRequestHeaders ≠ "" →
      (c.updateHeaders H) "Access-Control-Allow-Headers" = some [c.corsRequestHeaders]) ∧
    (c.corsRequestHeaders = "" →
      (c.updateHeaders H) "Access-Control-Allow-Headers" = H "Access-Control-Allow-Headers") := by
  have hupd : c.updateHeaders H =
      if c.corsRequestHeaders = "" then
        (H.Set "Access-Control-Allow-Origin" c.origin).Set "Access-Control-Allow-Methods"
          "DELETE,GET,PATCH,POST,PUT"
      else
        ((H.Set "Access-Control-Allow-Origin" c.origin).Set "Access-Control-Allow-Methods"
          "DELETE,GET,PATCH,POST,PUT").Set "Access-Control-Allow-Headers"
          c.corsRequestHeaders := by
    simp only [checkCorsHeaders.updateHeaders, h, join_CorsAllowedMethods,
      CORS_HEADER_ALLOW_ORIGIN, CORS_HEADER_ALLOW_METHODS, CORS_HEADER_ALLOW_HEADERS]
    by_cases hh : c.corsRequestHeaders = ""
    · have h0 : len c.corsRequestHeaders = 0 := (len_eq_zero_iff _).mpr hh
      simp only [h0]
      simp [hh]
    · have h0 : len c.corsRequestHeaders ≠ 0 := fun e => hh ((len_eq_zero_iff _).mp e)
      simp [hh, h0]
  rw [hupd]
  by_cases hh : c.corsRequestHeaders = ""
  · simp [hh, Header.Set]
  · simp [hh, Header.Set]

/-- C3, on the decision for a cross-origin request that asks for method `post` and header
`X-Token`, and an empty response header map. -/
theorem updateHeaders_allowed_witness :
    (newCheckCorsHeaders asciiToUpper sampleCorsHeader).allowCorsRequest = true ∧
    ((newCheckCorsHeaders asciiToUpper sampleCorsHeader).updateHeaders (fun _ => none))
      "Access-Control-Allow-Origin" = some ["http://localhost:8080"] ∧
    ((newCheckCorsHeaders asciiToUpper sampleCorsHeader).updateHeaders (fun _ => none))
      "Access-Control-Allow-Methods" = some ["DELETE,GET,PATCH,POST,PUT"] ∧
    ((newCheckCorsHeaders asciiToUpper sampleCorsHeader).updateHeaders (fun _ => none))
      "Access-Control-Allow-Headers" = some ["X-Token"] :=
  ⟨by decide,
    (updateHeaders_allowed (newCheckCorsHeaders asciiToUpper sampleCorsHeader) (fun _ => none)
      (by decide)).1,
    (updateHeaders_allowed (newCheckCorsHeaders asciiToUpper sampleCorsHeader) (fun _ => none)
      (by decide)).2.1,
    (updateHeaders_allowed (newCheckCorsHeaders asciiToUpper sampleCorsHeader) (fun _ => none)
      (by decide)).2.2.1 (by decide)⟩

/-! ## Request normalisation (`api_request.go`) -/

theorem hasPrefix_api (p : String) : HasPrefix ("/_ah/api/" ++ p) _API_PREFIX = true :=
  (hasPrefix_iff _ _).mpr ⟨p, rfl⟩

theorem sliceFrom_api (p : String) : sliceFrom ("/_ah/api/" ++ p) _API_PREFIX.length = p :=
  sliceFrom_append _API_PREFIX p

theorem length_pos_of_ne_nil {body : List UInt8} (h : body ≠ []) : body.length > 0 :=
  List.length_pos.mpr h

/-- C7. For every request whose path is the gateway prefix followed by some `p`, whose body
stream delivers a non-empty text and ends, and whose text `json.Unmarshal` decodes to an array
with zero elements, `newApiRequest` returns no request and the error
`Batch request has zero parts`. -/
theorem newApiRequest_empty_batch (Unmarshal : List UInt8 → Option GoValue)
    (Marshal : JsonObject → Except String (List UInt8)) (r : Request) (p : String)
    (body : List UInt8) (hpath : r.Path = "/_ah/api/" ++ p)
    (hbody : r.Body = { unread := body, fault := false }) (hne : body ≠ [])
    (hdec : Unmarshal body = some (.slice [])) :
    (newApiRequest Unmarshal Marshal r).ar = none ∧
    (newApiRequest Unmarshal Marshal r).err = some .emptyBatch ∧
    ApiError.emptyBatch.format = "Batch request has zero parts" := by
  have hlen := length_pos_of_ne_nil hne
  simp [newApiRequest, hpath, hbody, hasPrefix_api, sliceFrom_api, ReadAll, hlen, hdec,
    GoValue.assertSlice, ApiError.format]

/-- C7, on the body `[]` at path `/_ah/api/foo`. -/
theorem newApiRequest_empty_batch_witness :
    decodeJson (asciiBytes "[]") = some (.slice []) ∧
    (newApiRequest decodeJson encodeJson (sampleRequest "/_ah/api/foo" "[]")).ar = none ∧
    (newApiRequest decodeJson encodeJson (sampleRequest "/_ah/api/foo" "[]")).err
      = some .emptyBatch :=
  ⟨rfl,
    (newApiRequest_empty_batch decodeJson encodeJson (sampleRequest "/_ah/api/foo" "[]") "foo"
      (asciiBytes "[]") rfl rfl (by decide) rfl).1,
    (newApiRequest_empty_batch decodeJson encodeJson (sampleRequest "/_ah/api/foo" "[]") "foo"
      (asciiBytes "[]") rfl rfl (by decide) rfl).2.1⟩

/-- C6. For every request whose path does not start with the gateway prefix, whatever its
body, `newApiRequest` returns no request and the invalid-path error on that path, and leaves
the request as it was: the path unchanged, the body stream unread. -/
theorem newApiRequest_invalid_path (Unmarshal : List UInt8 → Option GoValue)
    (Marshal : JsonObject → Except String (List UInt8)) (r : Request)
    (hpath : ¬ ∃ p : String, r.Path = "/_ah/api/" ++ p) :
    (newApiRequest Unmarshal Marshal r).ar = none ∧
    (newApiRequest Unmarshal Marshal r).err = some (.invalidPath r.Path) ∧
    (newApiRequest Unmarshal Marshal r).request = r := by
  have h : HasPrefix r.Path _API_PREFIX = false := by
    cases hp : HasPrefix r.Path _API_PREFIX
    · rfl
    · exact absurd ((hasPrefix_iff _ _).mp hp) hpath
  simp [newApiRequest, h]

/-- C6, on the path `/api/foo` with a JSON object as body. -/
theorem newApiRequest_invalid_path_witness :
    (newApiRequest decodeJson encodeJson (sampleRequest "/api/foo" "\x7b\"a\":1\x7d")).ar = none ∧
    (newApiRequest decodeJson encodeJson (sampleRequest "/api/foo" "\x7b\"a\":1\x7d")).err
      = some (.invalidPath "/api/foo") ∧
    (newApiRequest decodeJson encodeJson (sampleRequest "/api/foo" "\x7b\"a\":1\x7d")).request
      = sampleRequest "/api/foo" "\x7b\"a\":1\x7d" :=
  newApiRequest_invalid_path decodeJson encodeJson (sampleRequest "/api/foo" "\x7b\"a\":1\x7d")
    (fun h => absurd ((hasPrefix_iff "/api/foo" "/_ah/api/").mpr h) (by decide))

/-- C8. For every request whose path is the gateway prefix followed by some `p` and whose body
stream ends without delivering a byte, `newApiRequest` returns no error and a request with
`body_json` the empty map, `is_batch = false` and `request_id = ""`; the path of the request
is then `p`. -/
theorem newApiRequest_empty_body (Unmarshal : List UInt8 → Option GoValue)
    (Marshal : JsonObject → Except String (List UInt8)) (r : Request) (p : String)
    (hpath : r.Path = "/_ah/api/" ++ p) (hbody : r.Body = { unread := [], fault := false }) :
    (newApiRequest Unmarshal Marshal r).ar
      = some { is_batch := false, body_json := [], request_id := "" } ∧
    (newApiRequest Unmarshal Marshal r).err = none ∧
    (newApiRequest Unmarshal Marshal r).request.Path = p := by
  simp [newApiRequest, hpath, hbody, hasPrefix_api, sliceFrom_api, ReadAll,
    GoValue.assertSlice, GoValue.assertJsonObject]

/-- C8, on the path `/_ah/api/foo` with an empty body. -/
theorem newApiRequest_empty_body_witness :
    (newApiRequest decodeJson encodeJson (sampleRequest "/_ah/api/foo" "")).ar
      = some { is_batch := false, body_json := [], request_id := "" } ∧
    (newApiRequest decodeJson encodeJson (sampleRequest "/_ah/api/foo" "")).err = none ∧
    (newApiRequest decodeJson encodeJson (sampleRequest "/_ah/api/foo" "")).request.Path
      = "foo" :=
  newApiRequest_empty_body decodeJson encodeJson (sampleRequest "/_ah/api/foo" "") "foo" rfl rfl

/-- C9. For every request whose path is the gateway prefix followed by some `p` and whose
body stream delivers a non-empty text that `json.Unmarshal` decodes to `v`: when the working
value `w` (`v` itself if `v` is not an array, the first element of `v` if it is a non-empty
array) is null, a boolean, a number, a string or an array, `newApiRequest` returns no request
and the body-must-be-a-map error on `w`. -/
theorem newApiRequest_non_object (Unmarshal : List UInt8 → Option GoValue)
    (Marshal : JsonObject → Except String (List UInt8)) (r : Request) (p : String)
    (body : List UInt8) (v w : GoValue) (hpath : r.Path = "/_ah/api/" ++ p)
    (hbody : r.Body = { unread := body, fault := false }) (hne : body ≠ [])
    (hdec : Unmarshal body = some v)
    (hw : (w = v ∧ ∀ xs, v ≠ .slice xs) ∨ ∃ rest, v = .slice (w :: rest))
    (hkind : w = .nil ∨ (∃ b, w = .bool b) ∨ (∃ lit, w = .float64 lit) ∨
      (∃ s, w = .string s) ∨ ∃ xs, w = .slice xs) :
    (newApiRequest Unmarshal Marshal r).ar = none ∧
    (newApiRequest Unmarshal Marshal r).err = some (.bodyNotMap w) ∧
    (ApiError.bodyNotMap w).format = "JSON request body must be a map: %s" := by
  have hlen := length_pos_of_ne_nil hne
  have hobj : w.assertJsonObject = none := by
    rcases hkind with h | ⟨_, h⟩ | ⟨_, h⟩ | ⟨_, h⟩ | ⟨_, h⟩ <;> subst h <;> rfl
  rcases hw with ⟨rfl, hns⟩ | ⟨rest, rfl⟩
  · have hsl : w.assertSlice = none := by
      cases w <;> first | rfl | exact absurd rfl (hns _)
    simp [newApiRequest, hpath, hbody, hasPrefix_api, sliceFrom_api, ReadAll, hlen, hdec,
      hsl, hobj, ApiError.format]
  · simp [newApiRequest, hpath, hbody, hasPrefix_api, sliceFrom_api, ReadAll, hlen, hdec,
      GoValue.assertSlice, hobj, ApiError.format]

/-- C9, on the top-level number `42` and on the batch `[[1]]`, whose first element is an
array. -/
theorem newApiRequest_non_object_witness :
    (newApiRequest decodeJson encodeJson (sampleRequest "/_ah/api/foo" "42")).err
      = some (.bodyNotMap (.float64 "42")) ∧
    (newApiRequest decodeJson encodeJson (sampleRequest "/_ah/api/foo" "[[1]]")).err
      = some (.bodyNotMap (.slice [.float64 "1"])) :=
  ⟨(newApiRequest_non_object decodeJson encodeJson (sampleRequest "/_ah/api/foo" "42") "foo"
      (asciiBytes "42") (.float64 "42") (.float64 "42") rfl rfl (by decide) rfl
      (Or.inl ⟨rfl, fun _ h => GoValue.noConfusion h⟩)
      (Or.inr (Or.inr (Or.inl ⟨"42", rfl⟩)))).2.1,
    (newApiRequest_non_object decodeJson encodeJson (sampleRequest "/_ah/api/foo" "[[1]]") "foo"
      (asciiBytes "[[1]]") (.slice [.slice [.float64 "1"]]) (.slice [.float64 "1"]) rfl rfl
      (by decide) rfl (Or.inr ⟨[], rfl⟩)
      (Or.inr (Or.inr (Or.inr (Or.inr ⟨[.float64 "1"], rfl⟩))))).2.1⟩

/-- C4 (the code differs). For every request whose path is the gateway prefix followed by some
`p` and whose body stream delivers a non-empty text that `json.Unmarshal` decodes to an object,
the value stored has dynamic type `map[string]interface{}`, the assertion to `JsonObject`
fails, and `newApiRequest` returns no request and the body-must-be-a-map error. -/
theorem newApiRequest_object_body_fails (Unmarshal : List UInt8 → Option GoValue)
    (Marshal : JsonObject → Except String (List UInt8)) (r : Request) (p : String)
    (body : List UInt8) (entries : List (String × GoValue))
    (hpath : r.Path = "/_ah/api/" ++ p)
    (hbody : r.Body = { unread := body, fault := false }) (hne : body ≠ [])
    (hdec : Unmarshal body = some (.map entries)) :
    (newApiRequest Unmarshal Marshal r).ar = none ∧
    (newApiRequest Unmarshal Marshal r).err = some (.bodyNotMap (.map entries)) ∧
    (newApiRequest Unmarshal Marshal r).request.Path = p := by
  have hlen := length_pos_of_ne_nil hne
  simp [newApiRequest, hpath, hbody, hasPrefix_api, sliceFrom_api, ReadAll, hlen, hdec,
    GoValue.assertSlice, GoValue.assertJsonObject]

/-- C4, on the body `{"a":1}` at path `/_ah/api/foo`: no request is returned. -/
theorem newApiRequest_object_body_fails_witness :
    decodeJson (asciiBytes "\x7b\"a\":1\x7d") = some (.map [("a", .float64 "1")]) ∧
    (newApiRequest decodeJson encodeJson
      (sampleRequest "/_ah/api/foo" "\x7b\"a\":1\x7d")).ar = none ∧
    (newApiRequest decodeJson encodeJson
      (sampleRequest "/_ah/api/foo" "\x7b\"a\":1\x7d")).err
        = some (.bodyNotMap (.map [("a", .float64 "1")])) ∧
    (newApiRequest decodeJson encodeJson
      (sampleRequest "/_ah/api/foo" "\x7b\"a\":1\x7d")).request.Path = "foo" :=
  ⟨rfl, newApiRequest_object_body_fails decodeJson encodeJson
    (sampleRequest "/_ah/api/foo" "\x7b\"a\":1\x7d") "foo" (asciiBytes "\x7b\"a\":1\x7d")
    [("a", .float64 "1")] rfl rfl (by decide) rfl⟩

/-- C5 (the code differs). For every request whose path is the gateway prefix followed by some
`p` and whose body stream delivers a non-empty text that `json.Unmarshal` decodes to an array
whose first element is an object, the assertion of that element to `JsonObject` fails, and
`newApiRequest` returns no request and the body-must-be-a-map error, whatever the elements
after the first are. -/
theorem newApiRequest_batch_of_object_fails (Unmarshal : List UInt8 → Option GoValue)
    (Marshal : JsonObject → Except String (List UInt8)) (r : Request) (p : String)
    (body : List UInt8) (entries : List (String × GoValue)) (rest : List GoValue)
    (hpath : r.Path = "/_ah/api/" ++ p)
    (hbody : r.Body = { unread := body, fault := false }) (hne : body ≠ [])
    (hdec : Unmarshal body = some (.slice (.map entries :: rest))) :
    (newApiRequest Unmarshal Marshal r).ar = none ∧
    (newApiRequest Unmarshal Marshal r).err = some (.bodyNotMap (.map entries)) := by
  have hlen := length_pos_of_ne_nil hne
  simp [newApiRequest, hpath, hbody, hasPrefix_api, sliceFrom_api, ReadAll, hlen, hdec,
    GoValue.assertSlice, GoValue.assertJsonObject]

/-- C5, on the bodies `[{"a":1}]` and `[{"a":1},{"b":2}]` at path `/_ah/api/foo`: no request
is returned for either. -/
theorem newApiRequest_batch_of_object_fails_witness :
    ((newApiRequest decodeJson encodeJson
        (sampleRequest "/_ah/api/foo" "[\x7b\"a\":1\x7d]")).ar = none ∧
      (newApiRequest decodeJson encodeJson
        (sampleRequest "/_ah/api/foo" "[\x7b\"a\":1\x7d]")).err
          = some (.bodyNotMap (.map [("a", .float64 "1")]))) ∧
    ((newApiRequest decodeJson encodeJson
        (sampleRequest "/_ah/api/foo" "[\x7b\"a\":1\x7d,\x7b\"b\":2\x7d]")).ar = none ∧
      (newApiRequest decodeJson encodeJson
        (sampleRequest "/_ah/api/foo" "[\x7b\"a\":1\x7d,\x7b\"b\":2\x7d]")).err
          = some (.bodyNotMap (.map [("a", .float64 "1")]))) :=
  ⟨newApiRequest_batch_of_object_fails decodeJson encodeJson
      (sampleRequest "/_ah/api/foo" "[\x7b\"a\":1\x7d]") "foo"
      (asciiBytes "[\x7b\"a\":1\x7d]") [("a", .float64 "1")] [] rfl rfl (by decide) rfl,
    newApiRequest_batch_of_object_fails decodeJson encodeJson
      (sampleRequest "/_ah/api/foo" "[\x7b\"a\":1\x7d,\x7b\"b\":2\x7d]") "foo"
      (asciiBytes "[\x7b\"a\":1\x7d,\x7b\"b\":2\x7d]") [("a", .float64 "1")]
      [.map [("b", .float64 "2")]] rfl rfl (by decide) rfl⟩

/-- C10 (the code differs). On the request with path `/_ah/api/foo` and an empty body,
`newApiRequest` succeeds and leaves the path `foo` behind; `copy()` on the request it returns
runs `newApiRequest` on that path and returns nil, the first time and the second time. -/
theorem copy_after_newApiRequest_nil :
    (newApiRequest decodeJson encodeJson (sampleRequest "/_ah/api/foo" "")).ar
      = some { is_batch := false, body_json := [], request_id := "" } ∧
    (newApiRequest decodeJson encodeJson (sampleRequest "/_ah/api/foo" "")).err = none ∧
    (newApiRequest decodeJson encodeJson (sampleRequest "/_ah/api/foo" "")).request.Path
      = "foo" ∧
    (ApiRequest.copy decodeJson encodeJson
      { is_batch := false, body_json := [], request_id := "" }
      (newApiRequest decodeJson encodeJson (sampleRequest "/_ah/api/foo" "")).request).2.2
      = none ∧
    (ApiRequest.copy decodeJson encodeJson
      { is_batch := false, body_json := [], request_id := "" }
      (ApiRequest.copy decodeJson encodeJson
        { is_batch := false, body_json := [], request_id := "" }
        (newApiRequest decodeJson encodeJson (sampleRequest "/_ah/api/foo" "")).request).1).2.2
      = none :=
  ⟨rfl, rfl, rfl, rfl, rfl⟩

/-! ## Errors (`errors.go`) -/

theorem mapGet_mapSet (m : List (String × GoValue)) (k k' : String) (v : GoValue) :
    mapGet (mapSet m k v) k' = if k = k' then some v else mapGet m k' := by
  induction m with
  | nil => simp [mapSet, mapGet]
  | cons hd tl ih =>
    obtain ⟨k0, v0⟩ := hd
    by_cases h0 : k0 = k
    · subst h0
      by_cases h1 : k0 = k' <;> simp [mapSet, mapGet, h1]
    · by_cases h1 : k0 = k'
      · subst h1
        simp [mapSet, mapGet, h0, Ne.symm h0]
      · simp [mapSet, mapGet, h0, h1, ih]

theorem mapGet_eq_none_of_not_mem (m : List (String × GoValue)) (k : String)
    (h : k ∉ m.map Prod.fst) : mapGet m k = none := by
  induction m with
  | nil => rfl
  | cons hd tl ih =>
    obtain ⟨k0, v0⟩ := hd
    simp only [List.map_cons, List.mem_cons, not_or] at h
    simp [mapGet, Ne.symm h.1, ih h.2]

theorem mapGet_isSome_iff_mem (m : List (String × GoValue)) (k : String) :
    (mapGet m k).isSome = true ↔ k ∈ m.map Prod.fst := by
  induction m with
  | nil => simp [mapGet]
  | cons hd tl ih =>
    obtain ⟨k0, v0⟩ := hd
    by_cases h0 : k0 = k
    · simp [mapGet, h0]
    · simp [mapGet, h0, ih, Ne.symm h0]

/-- Storing entries whose keys do not include `k` leaves the value under `k` as it was. -/
theorem mapGet_foldl_of_none (extra base : List (String × GoValue)) (k : String)
    (h : mapGet extra k = none) :
    mapGet (extra.foldl (fun error kv => mapSet error kv.1 kv.2) base) k = mapGet base k := by
  induction extra generalizing base with
  | nil => rfl
  | cons hd tl ih =>
    obtain ⟨k0, v0⟩ := hd
    by_cases h0 : k0 = k
    · simp [mapGet, h0] at h
    · simp only [mapGet, h0, if_false] at h
      simp only [List.foldl_cons]
      rw [ih _ h, mapGet_mapSet, if_neg h0]

/-- Storing the entries of a map leaves every one of its values under its key. -/
theorem mapGet_foldl_of_some (extra base : List (String × GoValue)) (k : String) (v : GoValue)
    (hmap : (extra.map Prod.fst).Nodup) (h : mapGet extra k = some v) :
    mapGet (extra.foldl (fun error kv => mapSet error kv.1 kv.2) base) k = some v := by
  induction extra generalizing base with
  | nil => simp [mapGet] at h
  | cons hd tl ih =>
    obtain ⟨k0, v0⟩ := hd
    simp only [List.map_cons, List.nodup_cons] at hmap
    simp only [List.foldl_cons]
    by_cases h0 : k0 = k
    · subst h0
      simp only [mapGet, if_true, Option.some.injEq] at h
      subst h
      rw [mapGet_foldl_of_none _ _ _ (mapGet_eq_none_of_not_mem _ _ hmap.1), mapGet_mapSet,
        if_pos rfl]
    · simp only [mapGet, h0, if_false] at h
      exact ih _ hmap.2 h

theorem format_error_of_tag (e : BaseRequestError) (t : String) (hc : t ≠ "code")
    (hm : t ≠ "message") :
    e.format_error t = [("error", .map [(t, .mapSlice [e.errorEntry]),
      ("code", .int e.StatusCode), ("message", .string e.Message)])] := by
  simp [BaseRequestError.format_error, mapLiteral, mapSet, hc, hm]

theorem errorEntry_of_none (e : BaseRequestError) (k : String)
    (h : mapGet e.ExtraFields k = none) :
    mapGet e.errorEntry k = mapGet [("domain", .string e.Domain), ("reason", .string e.Reason),
      ("message", .string e.Message)] k :=
  mapGet_foldl_of_none _ _ _ h

theorem errorEntry_of_some (e : BaseRequestError) (k : String) (v : GoValue)
    (hmap : (e.ExtraFields.map Prod.fst).Nodup) (h : mapGet e.ExtraFields k = some v) :
    mapGet e.errorEntry k = some v :=
  mapGet_foldl_of_some _ _ _ _ hmap h

/-- C11 as stated fails. With the tag `code`, the entry `code` of the literal is stored after
the entry of the tag and replaces it: the envelope has no list. And the entry of an error
whose extra fields have the key `domain` carries their value, not the `Domain` of the
error. -/
theorem format_error_counterexample :
    sampleError.format_error "code"
      = [("error", .map [("code", .int 400), ("message", .string "boom")])] ∧
    (∀ maps, mapGet [("code", GoValue.int 400), ("message", .string "boom")] "code"
      ≠ some (.mapSlice maps)) ∧
    sampleError.Domain = "global" ∧
    mapGet sampleError.errorEntry "domain" = some (.string "usageLimits") := by
  refine ⟨rfl, ?_, rfl, rfl⟩
  intro maps h
  simp [mapGet] at h

/-- C11, amended. For every error `e` (its extra fields a map: no key twice) and every tag `t`
other than `code` and `message`, `format_error(t)` is a map with the single key `error`, whose
value maps `t` to a list of exactly one entry, `code` to `e.StatusCode` and `message` to
`e.Message`. The entry carries every extra field of `e` under its key, and the domain, reason
and message of `e` under each of these three keys that is not a key of the extra fields.
`rpc_error()` is `format_error("data")`, which differs from `format_error("errors")` in the
envelope key only. -/
theorem format_error_envelope (e : BaseRequestError) (t : String)
    (hmap : (e.ExtraFields.map Prod.fst).Nodup) (hc : t ≠ "code") (hm : t ≠ "message") :
    e.format_error t = [("error", .map [(t, .mapSlice [e.errorEntry]),
      ("code", .int e.StatusCode), ("message", .string e.Message)])] ∧
    (∀ k v, mapGet e.ExtraFields k = some v → mapGet e.errorEntry k = some v) ∧
    (mapGet e.ExtraFields "domain" = none →
      mapGet e.errorEntry "domain" = some (.string e.Domain)) ∧
    (mapGet e.ExtraFields "reason" = none →
      mapGet e.errorEntry "reason" = some (.string e.Reason)) ∧
    (mapGet e.ExtraFields "message" = none →
      mapGet e.errorEntry "message" = some (.string e.Message)) ∧
    e.rpc_error = e.format_error "data" ∧
    e.rpc_error = [("error", .map [("data", .mapSlice [e.errorEntry]),
      ("code", .int e.StatusCode), ("message", .string e.Message)])] ∧
    e.format_error "errors" = [("error", .map [("errors", .mapSlice [e.errorEntry]),
      ("code", .int e.StatusCode), ("message", .string e.Message)])] := by
  refine ⟨format_error_of_tag e t hc hm, fun k v h => errorEntry_of_some e k v hmap h, ?_, ?_,
    ?_, rfl, format_error_of_tag e "data" (by decide) (by decide),
    format_error_of_tag e "errors" (by decide) (by decide)⟩
  · intro h
    rw [errorEntry_of_none e _ h]
    rfl
  · intro h
    rw [errorEntry_of_none e _ h]
    rfl
  · intro h
    rw [errorEntry_of_none e _ h]
    rfl

/-- C11 amended, on the error of `NewEnumRejectionError("color", "puprle", ["red", "blue"])`
and the tag `errors`. -/
theorem format_error_envelope_witness :
    (NewEnumRejectionError "color" "puprle" ["red", "blue"]).toBaseRequestError.format_error
        "errors"
      = [("error", .map
          [("errors", .mapSlice
            [(NewEnumRejectionError "color" "puprle"
              ["red", "blue"]).toBaseRequestError.errorEntry]),
            ("code", .int 400),
            ("message", .string "Invalid string value: puprle. Allowed values: [red blue]")])] :=
  (format_error_envelope (NewEnumRejectionError "color" "puprle" ["red", "blue"]).toBaseRequestError
    "errors" (by decide) (by decide) (by decide)).1

/-- C12. For every parameter name `p`, value `v` and list `A` of allowed values, the error
`NewEnumRejectionError(p, v, A)` has status code 400, reason `invalidParameter`, the message
`Invalid string value: v. Allowed values: ` followed by the rendering of `A`, and exactly the
extra fields `locationType: parameter` and `location: p`. The one entry of its REST and RPC
renderings has reason `invalidParameter` and location `p`, and the code of both renderings
is 400: `rpc_error()` is the map with that entry under `data`, and `rest_error()` is the text
`json.MarshalIndent` writes for the map with that entry under `errors` (the empty string only
if `json.MarshalIndent` returns an error). -/
theorem NewEnumRejectionError_fields (p v : String) (A : List String) :
    (NewEnumRejectionError p v A).status_code = 400 ∧
    (NewEnumRejectionError p v A).Reason = "invalidParameter" ∧
    (NewEnumRejectionError p v A).Message
      = "Invalid string value: " ++ v ++ ". Allowed values: " ++ formatStrings A ∧
    (NewEnumRejectionError p v A).ExtraFields
      = [("locationType", .string "parameter"), ("location", .string p)] ∧
    mapGet (NewEnumRejectionError p v A).errorEntry "reason"
      = some (.string "invalidParameter") ∧
    mapGet (NewEnumRejectionError p v A).errorEntry "location" = some (.string p) ∧
    (NewEnumRejectionError p v A).format_error "errors"
      = [("error", .map [("errors", .mapSlice [(NewEnumRejectionError p v A).errorEntry]),
          ("code", .int 400),
          ("message", .string ("Invalid string value: " ++ v ++ ". Allowed values: "
            ++ formatStrings A))])] ∧
    (NewEnumRejectionError p v A).rpc_error
      = [("error", .map [("data", .mapSlice [(NewEnumRejectionError p v A).errorEntry]),
          ("code", .int 400),
          ("message", .string ("Invalid string value: " ++ v ++ ". Allowed values: "
            ++ formatStrings A))])] ∧
    (NewEnumRejectionError p v A).errorEntry
      = [("domain", .string ""), ("reason", .string "invalidParameter"),
          ("message", .string ("Invalid string value: " ++ v ++ ". Allowed values: "
            ++ formatStrings A)),
          ("locationType", .string "parameter"), ("location", .string p)] ∧
    (∀ (MarshalIndent : GoValue → Except String String) (text : String),
      MarshalIndent (.map
        [("error", .map [("errors", .mapSlice [(NewEnumRejectionError p v A).errorEntry]),
          ("code", .int 400),
          ("message", .string ("Invalid string value: " ++ v ++ ". Allowed values: "
            ++ formatStrings A))])]) = .ok text →
      (NewEnumRejectionError p v A).rest_error MarshalIndent = text) ∧
    (∀ (MarshalIndent : GoValue → Except String String) (msg : String),
      MarshalIndent (.map
        [("error", .map [("errors", .mapSlice [(NewEnumRejectionError p v A).errorEntry]),
          ("code", .int 400),
          ("message", .string ("Invalid string value: " ++ v ++ ". Allowed values: "
            ++ formatStrings A))])]) = .error msg →
      (NewEnumRejectionError p v A).rest_error MarshalIndent = "") := by
  have herrors := format_error_of_tag (NewEnumRejectionError p v A).toBaseRequestError "errors"
    (by decide) (by decide)
  refine ⟨rfl, rfl, rfl, rfl, rfl, rfl, herrors, ?_, rfl, ?_, ?_⟩
  · exact format_error_of_tag _ "data" (by decide) (by decide)
  · intro MarshalIndent text h
    simp only [BaseRequestError.rest_error, herrors]
    rw [show (NewEnumRejectionError p v A).StatusCode = 400 from rfl,
      show (NewEnumRejectionError p v A).Message
        = "Invalid string value: " ++ v ++ ". Allowed values: " ++ formatStrings A from rfl, h]
  · intro MarshalIndent msg h
    simp only [BaseRequestError.rest_error, herrors]
    rw [show (NewEnumRejectionError p v A).StatusCode = 400 from rfl,
      show (NewEnumRejectionError p v A).Message
        = "Invalid string value: " ++ v ++ ". Allowed values: " ++ formatStrings A from rfl, h]

set_option maxRecDepth 20000 in
/-- C12, on `NewEnumRejectionError("color", "puprle", ["red", "blue"])`: the message, the
location of the entry, and the text of the REST rendering. -/
theorem NewEnumRejectionError_fields_witness :
    (NewEnumRejectionError "color" "puprle" ["red", "blue"]).Message
      = "Invalid string value: puprle. Allowed values: [red blue]" ∧
    mapGet (NewEnumRejectionError "color" "puprle" ["red", "blue"]).errorEntry "location"
      = some (.string "color") ∧
    (NewEnumRejectionError "color" "puprle" ["red", "blue"]).rest_error encodeIndent
      = "\x7b\n  \"error\": \x7b\n    \"code\": 400,\n    \"errors\": [\n      \x7b\n"
        ++ "        \"domain\": \"\",\n        \"location\": \"color\",\n"
        ++ "        \"locationType\": \"parameter\",\n"
        ++ "        \"message\": \"Invalid string value: puprle. Allowed values: [red blue]\",\n"
        ++ "        \"reason\": \"invalidParameter\"\n      \x7d\n    ],\n"
        ++ "    \"message\": \"Invalid string value: puprle. Allowed values: [red blue]\"\n"
        ++ "  \x7d\n\x7d" :=
  ⟨by
      rw [(NewEnumRejectionError_fields "color" "puprle" ["red", "blue"]).2.2.1]
      decide,
    (NewEnumRejectionError_fields "color" "puprle" ["red", "blue"]).2.2.2.2.2.1,
    (NewEnumRejectionError_fields "color" "puprle" ["red", "blue"]).2.2.2.2.2.2.2.2.2.1
      encodeIndent _ (by rfl)⟩

/-- C13 (the code differs). `NewEnumRejectionError` sets no domain, and the field then holds
the empty string, not `global`: for every `p`, `v` and `A` the `Domain` of the error is `""`,
and the one entry of its renderings maps `domain` to `""`. -/
theorem NewEnumRejectionError_domain_empty (p v : String) (A : List String) :
    (NewEnumRejectionError p v A).Domain = "" ∧
    (NewEnumRejectionError p v A).Domain ≠ "global" ∧
    mapGet (NewEnumRejectionError p v A).errorEntry "domain" = some (.string "") :=
  ⟨rfl, show "" ≠ "global" by decide, rfl⟩

/-- C19. For every error whose extra fields are a map (no key twice): an extra field under the
key `domain`, `reason` or `message` is what the rendered entry carries under that key; and
when the extra fields have none of the three keys, the keys of the entry are `domain`,
`reason`, `message` and the keys of the extra fields, with the `Domain`, `Reason` and `Message`
of the error under the three. The entry is the one element of the list in both renderings. -/
theorem errorEntry_extra_fields_last (e : BaseRequestError)
    (hmap : (e.ExtraFields.map Prod.fst).Nodup) :
    (∀ k v, k ∈ ["domain", "reason", "message"] → mapGet e.ExtraFields k = some v →
      mapGet e.errorEntry k = some v) ∧
    (mapGet e.ExtraFields "domain" = none → mapGet e.ExtraFields "reason" = none →
      mapGet e.ExtraFields "message" = none →
      (∀ k, (mapGet e.errorEntry k).isSome = true ↔
        (k ∈ ["domain", "reason", "message"] ∨ k ∈ e.ExtraFields.map Prod.fst)) ∧
      mapGet e.errorEntry "domain" = some (.string e.Domain) ∧
      mapGet e.errorEntry "reason" = some (.string e.Reason) ∧
      mapGet e.errorEntry "message" = some (.string e.Message)) ∧
    e.format_error "errors" = [("error", .map [("errors", .mapSlice [e.errorEntry]),
      ("code", .int e.StatusCode), ("message", .string e.Message)])] ∧
    e.rpc_error = [("error", .map [("data", .mapSlice [e.errorEntry]),
      ("code", .int e.StatusCode), ("message", .string e.Message)])] := by
  refine ⟨fun k v _ h => errorEntry_of_some e k v hmap h, ?_,
    format_error_of_tag e "errors" (by decide) (by decide),
    format_error_of_tag e "data" (by decide) (by decide)⟩
  intro hd hr hmsg
  refine ⟨?_, ?_, ?_, ?_⟩
  · intro k
    cases hk : mapGet e.ExtraFields k with
    | some v =>
      have hmem : k ∈ e.ExtraFields.map Prod.fst :=
        (mapGet_isSome_iff_mem _ _).mp (by rw [hk]; rfl)
      rw [errorEntry_of_some e k v hmap hk]
      simp [hmem]
    | none =>
      have hmem : k ∉ e.ExtraFields.map Prod.fst := fun hin => by
        have := (mapGet_isSome_iff_mem _ _).mpr hin
        rw [hk] at this
        exact absurd this (by decide)
      rw [errorEntry_of_none e k hk, mapGet_isSome_iff_mem]
      simp [hmem]
  · rw [errorEntry_of_none e _ hd]; rfl
  · rw [errorEntry_of_none e _ hr]; rfl
  · rw [errorEntry_of_none e _ hmsg]; rfl

/-- C19, on an error with domain `global` whose extra fields map `domain` to `usageLimits`:
the entry carries `usageLimits`. -/
theorem errorEntry_extra_fields_last_witness :
    sampleError.Domain = "global" ∧
    mapGet sampleError.ExtraFields "domain" = some (.string "usageLimits") ∧
    mapGet sampleError.errorEntry "domain" = some (.string "usageLimits") :=
  ⟨rfl, rfl,
    (errorEntry_extra_fields_last sampleError (by decide)).1 "domain" (.string "usageLimits")
      (by decide) rfl⟩

/-- C14. For every upstream response, status-code table, `json.Unmarshal` and conversion
`string(body)`: the message of `NewBackendError` is the value of the field `error_message` when
the body decodes to a map that has this field with a string value; it is the text of the body
when decoding fails, when the map has no such field (as for a body that is `null`), and when
the field is not a string. These are all the cases, and each builds an error. -/
theorem NewBackendError_message (get_error_info : Int → ErrorInfo)
    (Unmarshal : List UInt8 → Option (List (String × GoValue)))
    (toText : List UInt8 → String) (response : Response) :
    (∀ m s, Unmarshal response.Body.unread = some m →
      mapGet m "error_message" = some (.string s) →
      (NewBackendError get_error_info Unmarshal toText response).2.Message = s) ∧
    (Unmarshal response.Body.unread = none →
      (NewBackendError get_error_info Unmarshal toText response).2.Message
        = toText response.Body.unread) ∧
    (∀ m, Unmarshal response.Body.unread = some m → mapGet m "error_message" = none →
      (NewBackendError get_error_info Unmarshal toText response).2.Message
        = toText response.Body.unread) ∧
    (∀ m v, Unmarshal response.Body.unread = some m → mapGet m "error_message" = some v →
      (∀ s, v ≠ .string s) →
      (NewBackendError get_error_info Unmarshal toText response).2.Message
        = toText response.Body.unread) ∧
    ((∃ m s, Unmarshal response.Body.unread = some m ∧
        mapGet m "error_message" = some (.string s) ∧
        (NewBackendError get_error_info Unmarshal toText response).2.Message = s) ∨
      (NewBackendError get_error_info Unmarshal toText response).2.Message
        = toText response.Body.unread) := by
  refine ⟨?_, ?_, ?_, ?_, ?_⟩
  · intro m s h1 h2
    simp [NewBackendError, ReadAll, h1, h2]
  · intro h1
    simp [NewBackendError, ReadAll, h1]
  · intro m h1 h2
    simp [NewBackendError, ReadAll, h1, h2]
  · intro m v h1 h2 h3
    cases v <;> first | (simp [NewBackendError, ReadAll, h1, h2]; done) | exact absurd rfl (h3 _)
  · cases h1 : Unmarshal response.Body.unread with
    | none => right; simp [NewBackendError, ReadAll, h1]
    | some m =>
      cases h2 : mapGet m "error_message" with
      | none => right; simp [NewBackendError, ReadAll, h1, h2]
      | some v =>
        cases v with
        | string s => left; exact ⟨m, s, rfl, h2, by simp [NewBackendError, ReadAll, h1, h2]⟩
        | _ => right; simp [NewBackendError, ReadAll, h1, h2]

/-- C14, on five upstream bodies: an object with a string `error_message`, a text that is not
JSON, an array, an object without the field, and an object whose field is a number. -/
theorem NewBackendError_message_witness :
    (NewBackendError sampleErrorInfo decodeJsonMap asciiString
      (sampleResponse 500 "\x7b\"error_message\":\"boom\"\x7d")).2.Message = "boom" ∧
    (NewBackendError sampleErrorInfo decodeJsonMap asciiString
      (sampleResponse 500 "oops")).2.Message = "oops" ∧
    (NewBackendError sampleErrorInfo decodeJsonMap asciiString
      (sampleResponse 500 "[1]")).2.Message = "[1]" ∧
    (NewBackendError sampleErrorInfo decodeJsonMap asciiString
      (sampleResponse 500 "\x7b\"x\":1\x7d")).2.Message = "\x7b\"x\":1\x7d" ∧
    (NewBackendError sampleErrorInfo decodeJsonMap asciiString
      (sampleResponse 500 "\x7b\"error_message\":5\x7d")).2.Message
        = "\x7b\"error_message\":5\x7d" :=
  ⟨(NewBackendError_message sampleErrorInfo decodeJsonMap asciiString
      (sampleResponse 500 "\x7b\"error_message\":\"boom\"\x7d")).1
      [("error_message", .string "boom")] "boom" rfl rfl,
    (NewBackendError_message sampleErrorInfo decodeJsonMap asciiString
      (sampleResponse 500 "oops")).2.1 rfl,
    (NewBackendError_message sampleErrorInfo decodeJsonMap asciiString
      (sampleResponse 500 "[1]")).2.1 rfl,
    (NewBackendError_message sampleErrorInfo decodeJsonMap asciiString
      (sampleResponse 500 "\x7b\"x\":1\x7d")).2.2.1 [("x", .float64 "1")] rfl rfl,
    (NewBackendError_message sampleErrorInfo decodeJsonMap asciiString
      (sampleResponse 500 "\x7b\"error_message\":5\x7d")).2.2.2.1
      [("error_message", .float64 "5")] (.float64 "5") rfl rfl
      (fun _ h => GoValue.noConfusion h)⟩

/-! ## Responses (`endpoints_server_util.go`) -/

theorem updateHeaders_allow_origin (c : checkCorsHeaders) (H : Header)
    (h : c.allowCorsRequest = true) :
    (c.updateHeaders H) "Access-Control-Allow-Origin" = some [c.origin] := by
  simp only [checkCorsHeaders.updateHeaders, h, CORS_HEADER_ALLOW_ORIGIN,
    CORS_HEADER_ALLOW_METHODS, CORS_HEADER_ALLOW_HEADERS, Bool.not_true, Bool.false_eq_true,
    if_false]
  split <;> simp [Header.Set]

/-- C15. For every writer to which no header has been written, whatever its header map, and
every CORS handler or none: `sendNotFoundResponse` writes status 404 and the body `Not Found`,
leaves `text/plain` under `Content-Type` and `9` under `Content-Length`, and returns
`Not Found`; when the handler is a `checkCorsHeaders` that allows the request, the header map
also holds its origin under `Access-Control-Allow-Origin`. -/
theorem sendNotFoundResponse_writes (w : ResponseWriter) (handler : corsHandler)
    (hw : w.status = none) :
    (sendNotFoundResponse w handler).1.status = some 404 ∧
    (sendNotFoundResponse w handler).1.body = w.body ++ "Not Found" ∧
    (sendNotFoundResponse w handler).1.Header "Content-Type" = some ["text/plain"] ∧
    (sendNotFoundResponse w handler).1.Header "Content-Length" = some ["9"] ∧
    (sendNotFoundResponse w handler).2 = "Not Found" ∧
    ∀ c : checkCorsHeaders, handler = some c.updateHeaders → c.allowCorsRequest = true →
      (sendNotFoundResponse w handler).1.Header "Access-Control-Allow-Origin"
        = some [c.origin] := by
  have h9 : formatLength (len "Not Found") = "9" := by decide
  refine ⟨?_, ?_, ?_, ?_, rfl, ?_⟩
  · cases handler <;>
      simp [sendNotFoundResponse, applyCorsHandler, ResponseWriter.WriteHeader,
        ResponseWriter.Write, hw]
  · cases handler <;>
      simp [sendNotFoundResponse, applyCorsHandler, ResponseWriter.WriteHeader,
        ResponseWriter.Write, hw]
  · cases handler <;>
      simp [sendNotFoundResponse, applyCorsHandler, ResponseWriter.WriteHeader,
        ResponseWriter.Write, hw, Header.Set]
  · cases handler <;>
      simp [sendNotFoundResponse, applyCorsHandler, ResponseWriter.WriteHeader,
        ResponseWriter.Write, hw, Header.Set, h9]
  · intro c hc hallow
    subst hc
    simp [sendNotFoundResponse, applyCorsHandler, ResponseWriter.WriteHeader,
      ResponseWriter.Write, hw, Header.Set, updateHeaders_allow_origin c w.Header hallow]

/-- C15, on a fresh writer and the handler of a cross-origin request from
`http://localhost:8080`. -/
theorem sendNotFoundResponse_writes_witness :
    (sendNotFoundResponse (freshWriter (fun _ => none))
      (some (newCheckCorsHeaders asciiToUpper sampleCorsHeader).updateHeaders)).1.status
        = some 404 ∧
    (sendNotFoundResponse (freshWriter (fun _ => none))
      (some (newCheckCorsHeaders asciiToUpper sampleCorsHeader).updateHeaders)).1.body
        = "Not Found" ∧
    (sendNotFoundResponse (freshWriter (fun _ => none))
      (some (newCheckCorsHeaders asciiToUpper sampleCorsHeader).updateHeaders)).1.Header
        "Access-Control-Allow-Origin" = some ["http://localhost:8080"] :=
  ⟨(sendNotFoundResponse_writes (freshWriter (fun _ => none))
      (some (newCheckCorsHeaders asciiToUpper sampleCorsHeader).updateHeaders) rfl).1,
    (sendNotFoundResponse_writes (freshWriter (fun _ => none))
      (some (newCheckCorsHeaders asciiToUpper sampleCorsHeader).updateHeaders) rfl).2.1,
    (sendNotFoundResponse_writes (freshWriter (fun _ => none))
      (some (newCheckCorsHeaders asciiToUpper sampleCorsHeader).updateHeaders) rfl).2.2.2.2.2
      (newCheckCorsHeaders asciiToUpper sampleCorsHeader) rfl (by decide)⟩

theorem marshalText_of_ok (Marshal : GoValue → Except String String) (v : GoValue)
    (text : String) (h : Marshal v = .ok text) : marshalText Marshal v = text := by
  simp [marshalText, h]

theorem marshalText_of_error (Marshal : GoValue → Except String String) (v : GoValue)
    (msg : String) (h : Marshal v = .error msg) : marshalText Marshal v = "" := by
  simp [marshalText, h]

/-- C16 as stated fails for a payload `json.Marshal` does not serialise. On the payload that
maps `x` to the `float64` `+Inf`, the marshaller returns an error, which the code drops:
`sendRejectedResponse` writes status 400 with an empty body, which is not a JSON text, and
`Content-Length` 0. -/
theorem sendRejectedResponse_counterexample :
    encodeText (.map [("x", .float64 "+Inf")]) = .error "json: unsupported value" ∧
    (sendRejectedResponse encodeText [("x", .float64 "+Inf")] (freshWriter (fun _ => none))
      none).1.status = some 400 ∧
    (sendRejectedResponse encodeText [("x", .float64 "+Inf")] (freshWriter (fun _ => none))
      none).1.body = "" ∧
    (sendRejectedResponse encodeText [("x", .float64 "+Inf")] (freshWriter (fun _ => none))
      none).1.Header "Content-Length" = some ["0"] ∧
    (sendRejectedResponse encodeText [("x", .float64 "+Inf")] (freshWriter (fun _ => none))
      none).2 = "" ∧
    decodeJson (asciiBytes "") = none :=
  ⟨rfl, rfl, rfl, rfl, rfl, rfl⟩

/-- C16, amended. For every writer to which no header has been written, every CORS handler or
none (whatever it does to the header map) and every `json.Marshal`: `sendErrorResponse` writes
status 500, `sendRejectedResponse` status 400; each writes the string it returns as the body,
leaves `application/json` under `Content-Type` and the decimal byte length of that string under
`Content-Length`. The string is the serialisation of `{"error":{"message": m}}` for the
first and of the payload for the second when `json.Marshal` gives one; when `json.Marshal`
returns an error the string is empty and `Content-Length` is `0`. -/
theorem sendErrorResponse_sendRejectedResponse_write
    (Marshal : GoValue → Except String String) (message : String)
    (rejectionError : List (String × GoValue)) (w : ResponseWriter) (handler : corsHandler)
    (hw : w.status = none) :
    ((sendErrorResponse Marshal message w handler).1.status = some 500 ∧
      (sendErrorResponse Marshal message w handler).1.body
        = w.body ++ (sendErrorResponse Marshal message w handler).2 ∧
      (sendErrorResponse Marshal message w handler).1.Header "Content-Type"
        = some ["application/json"] ∧
      (sendErrorResponse Marshal message w handler).1.Header "Content-Length"
        = some [formatLength (len (sendErrorResponse Marshal message w handler).2)] ∧
      (∀ text, Marshal (.map [("error", .map [("message", .string message)])]) = .ok text →
        (sendErrorResponse Marshal message w handler).2 = text) ∧
      (∀ msg, Marshal (.map [("error", .map [("message", .string message)])]) = .error msg →
        (sendErrorResponse Marshal message w handler).2 = "" ∧
        (sendErrorResponse Marshal message w handler).1.Header "Content-Length"
          = some ["0"])) ∧
    ((sendRejectedResponse Marshal rejectionError w handler).1.status = some 400 ∧
      (sendRejectedResponse Marshal rejectionError w handler).1.body
        = w.body ++ (sendRejectedResponse Marshal rejectionError w handler).2 ∧
      (sendRejectedResponse Marshal rejectionError w handler).1.Header "Content-Type"
        = some ["application/json"] ∧
      (sendRejectedResponse Marshal rejectionError w handler).1.Header "Content-Length"
        = some [formatLength (len (sendRejectedResponse Marshal rejectionError w handler).2)] ∧
      (∀ text, Marshal (.map rejectionError) = .ok text →
        (sendRejectedResponse Marshal rejectionError w handler).2 = text) ∧
      (∀ msg, Marshal (.map rejectionError) = .error msg →
        (sendRejectedResponse Marshal rejectionError w handler).2 = "" ∧
        (sendRejectedResponse Marshal rejectionError w handler).1.Header "Content-Length"
          = some ["0"])) := by
  have h0 : formatLength (len "") = "0" := by decide
  have hE4 : (sendErrorResponse Marshal message w handler).1.Header "Content-Length"
      = some [formatLength (len (sendErrorResponse Marshal message w handler).2)] := by
    cases handler <;>
      simp [sendErrorResponse, applyCorsHandler, ResponseWriter.WriteHeader,
        ResponseWriter.Write, hw, Header.Set]
  have hR4 : (sendRejectedResponse Marshal rejectionError w handler).1.Header "Content-Length"
      = some [formatLength (len (sendRejectedResponse Marshal rejectionError w handler).2)] := by
    cases handler <;>
      simp [sendRejectedResponse, applyCorsHandler, ResponseWriter.WriteHeader,
        ResponseWriter.Write, hw, Header.Set]
  refine ⟨⟨?_, ?_, ?_, hE4, ?_, ?_⟩, ⟨?_, ?_, ?_, hR4, ?_, ?_⟩⟩
  · cases handler <;>
      simp [sendErrorResponse, applyCorsHandler, ResponseWriter.WriteHeader,
        ResponseWriter.Write, hw]
  · cases handler <;>
      simp [sendErrorResponse, applyCorsHandler, ResponseWriter.WriteHeader,
        ResponseWriter.Write, hw]
  · cases handler <;>
      simp [sendErrorResponse, applyCorsHandler, ResponseWriter.WriteHeader,
        ResponseWriter.Write, hw, Header.Set]
  · intro text h
    exact marshalText_of_ok Marshal _ text h
  · intro msg h
    have hbody : (sendErrorResponse Marshal message w handler).2 = "" :=
      marshalText_of_error Marshal _ msg h
    exact ⟨hbody, by rw [hE4, hbody, h0]⟩
  · cases handler <;>
      simp [sendRejectedResponse, applyCorsHandler, ResponseWriter.WriteHeader,
        ResponseWriter.Write, hw]
  · cases handler <;>
      simp [sendRejectedResponse, applyCorsHandler, ResponseWriter.WriteHeader,
        ResponseWriter.Write, hw]
  · cases handler <;>
      simp [sendRejectedResponse, applyCorsHandler, ResponseWriter.WriteHeader,
        ResponseWriter.Write, hw, Header.Set]
  · intro text h
    exact marshalText_of_ok Marshal _ text h
  · intro msg h
    have hbody : (sendRejectedResponse Marshal rejectionError w handler).2 = "" :=
      marshalText_of_error Marshal _ msg h
    exact ⟨hbody, by rw [hR4, hbody, h0]⟩

/-- C16 amended, on the message `boom` and on the payload `{"code":400}`, with a handler that
has set `Content-Type` and `Content-Length` itself. -/
theorem sendErrorResponse_sendRejectedResponse_write_witness :
    ((sendErrorResponse encodeText "boom" (freshWriter (fun _ => none)) sampleHandler).2
        = "\x7b\"error\":\x7b\"message\":\"boom\"\x7d\x7d" ∧
      (sendErrorResponse encodeText "boom" (freshWriter (fun _ => none)) sampleHandler).1.status
        = some 500 ∧
      (sendErrorResponse encodeText "boom" (freshWriter (fun _ => none)) sampleHandler).1.Header
        "Content-Type" = some ["application/json"] ∧
      (sendErrorResponse encodeText "boom" (freshWriter (fun _ => none)) sampleHandler).1.Header
        "Content-Length" = some ["28"]) ∧
    ((sendRejectedResponse encodeText [("code", .int 400)] (freshWriter (fun _ => none))
        sampleHandler).2 = "\x7b\"code\":400\x7d" ∧
      (sendRejectedResponse encodeText [("code", .int 400)] (freshWriter (fun _ => none))
        sampleHandler).1.status = some 400 ∧
      (sendRejectedResponse encodeText [("code", .int 400)] (freshWriter (fun _ => none))
        sampleHandler).1.Header "Content-Length" = some ["12"]) :=
  ⟨⟨(sendErrorResponse_sendRejectedResponse_write encodeText "boom" [("code", .int 400)]
        (freshWriter (fun _ => none)) sampleHandler rfl).1.2.2.2.2.1 _ rfl,
      (sendErrorResponse_sendRejectedResponse_write encodeText "boom" [("code", .int 400)]
        (freshWriter (fun _ => none)) sampleHandler rfl).1.1,
      (sendErrorResponse_sendRejectedResponse_write encodeText "boom" [("code", .int 400)]
        (freshWriter (fun _ => none)) sampleHandler rfl).1.2.2.1,
      (sendErrorResponse_sendRejectedResponse_write encodeText "boom" [("code", .int 400)]
        (freshWriter (fun _ => none)) sampleHandler rfl).1.2.2.2.1⟩,
    ⟨(sendErrorResponse_sendRejectedResponse_write encodeText "boom" [("code", .int 400)]
        (freshWriter (fun _ => none)) sampleHandler rfl).2.2.2.2.2.1 _ rfl,
      (sendErrorResponse_sendRejectedResponse_write encodeText "boom" [("code", .int 400)]
        (freshWriter (fun _ => none)) sampleHandler rfl).2.1,
      (sendErrorResponse_sendRejectedResponse_write encodeText "boom" [("code", .int 400)]
        (freshWriter (fun _ => none)) sampleHandler rfl).2.2.2.2.1⟩⟩

/-! ## Request normalisation: what the type assertions and the writes to the request do -/

theorem assertJsonObject_of_isDecoded (v : GoValue) (h : v.isDecoded = true) :
    v.assertJsonObject = none := by
  cases v <;> first | rfl | simp [GoValue.isDecoded] at h

theorem isDecoded_head (x : GoValue) (xs : List GoValue)
    (h : (GoValue.slice (x :: xs)).isDecoded = true) : x.isDecoded = true := by
  simp only [GoValue.isDecoded, GoValue.isDecoded.decodedList, Bool.and_eq_true] at h
  exact h.1

theorem newApiRequest_of_not_prefix (Unmarshal : List UInt8 → Option GoValue)
    (Marshal : JsonObject → Except String (List UInt8)) (r : Request)
    (h : HasPrefix r.Path _API_PREFIX = false) :
    newApiRequest Unmarshal Marshal r
      = { request := r, log := [], ar := none, err := some (.invalidPath r.Path) } := by
  simp [newApiRequest, h]

/-- On a request with the gateway prefix whose body decodes, if at all, to a value of the
built-in dynamic types: the path is left without the prefix and the body stream read; and a
non-empty body gives an error and no request. -/
theorem newApiRequest_of_decoded (Unmarshal : List UInt8 → Option GoValue)
    (Marshal : JsonObject → Except String (List UInt8)) (r : Request) (p : String)
    (hpath : r.Path = "/_ah/api/" ++ p)
    (hdec : ∀ v, Unmarshal r.Body.unread = some v → v.isDecoded = true) :
    (newApiRequest Unmarshal Marshal r).request.Path = p ∧
    (newApiRequest Unmarshal Marshal r).request.Body.unread = [] ∧
    (r.Body.unread ≠ [] →
      (newApiRequest Unmarshal Marshal r).ar = none ∧
      ((newApiRequest Unmarshal Marshal r).err).isSome = true) := by
  obtain ⟨hd, path, ⟨unread, fault⟩⟩ := r
  simp only at hpath hdec
  subst hpath
  cases fault with
  | true => simp [newApiRequest, hasPrefix_api, sliceFrom_api, ReadAll]
  | false =>
    cases unread with
    | nil =>
      simp [newApiRequest, hasPrefix_api, sliceFrom_api, ReadAll, GoValue.assertSlice,
        GoValue.assertJsonObject]
    | cons b bs =>
      cases hU : Unmarshal (b :: bs) with
      | none => simp [newApiRequest, hasPrefix_api, sliceFrom_api, ReadAll, hU]
      | some v =>
        have hv := hdec v hU
        have hobj := assertJsonObject_of_isDecoded v hv
        cases hs : v.assertSlice with
        | none =>
          simp [newApiRequest, hasPrefix_api, sliceFrom_api, ReadAll, hU, hs, hobj]
        | some xs =>
          have hvx : v = .slice xs := by
            cases v <;> simp [GoValue.assertSlice] at hs
            exact congrArg _ hs
          subst hvx
          cases xs with
          | nil => simp [newApiRequest, hasPrefix_api, sliceFrom_api, ReadAll, hU, hs]
          | cons x rest =>
            have hx := assertJsonObject_of_isDecoded x (isDecoded_head x rest hv)
            simp [newApiRequest, hasPrefix_api, sliceFrom_api, ReadAll, hU, hs, hx]

/-- C17. For every request whose path starts with the gateway prefix and whose body stream
holds at least one byte: as `json.Unmarshal` stores values of the built-in dynamic types only,
never a `JsonObject`, `newApiRequest` returns no request and an error. -/
theorem newApiRequest_nonempty_body_error (Unmarshal : List UInt8 → Option GoValue)
    (Marshal : JsonObject → Except String (List UInt8)) (r : Request) (p : String)
    (hpath : r.Path = "/_ah/api/" ++ p) (hne : r.Body.unread ≠ [])
    (hdec : ∀ v, Unmarshal r.Body.unread = some v → v.isDecoded = true) :
    (newApiRequest Unmarshal Marshal r).ar = none ∧
    ((newApiRequest Unmarshal Marshal r).err).isSome = true :=
  (newApiRequest_of_decoded Unmarshal Marshal r p hpath hdec).2.2 hne

/-- C17, on the body `{"a":{"b":[1,"x",null]}}` at path `/_ah/api/foo`. -/
theorem newApiRequest_nonempty_body_error_witness :
    decodeJson (asciiBytes "\x7b\"a\":\x7b\"b\":[1,\"x\",null]\x7d\x7d")
      = some (.map [("a", .map [("b", .slice [.float64 "1", .string "x", .nil])])]) ∧
    (newApiRequest decodeJson encodeJson
      (sampleRequest "/_ah/api/foo" "\x7b\"a\":\x7b\"b\":[1,\"x\",null]\x7d\x7d")).ar = none ∧
    ((newApiRequest decodeJson encodeJson
      (sampleRequest "/_ah/api/foo" "\x7b\"a\":\x7b\"b\":[1,\"x\",null]\x7d\x7d")).err).isSome
        = true :=
  ⟨rfl, newApiRequest_nonempty_body_error decodeJson encodeJson
    (sampleRequest "/_ah/api/foo" "\x7b\"a\":\x7b\"b\":[1,\"x\",null]\x7d\x7d") "foo" rfl
    (by decide)
    (fun v h => Option.some.inj
      (h : some (GoValue.map [("a", .map [("b", .slice [.float64 "1", .string "x", .nil])])])
        = some v) ▸ rfl)⟩

/-- C18. For every request with path `/_ah/api/` followed by `p` (and a body that decodes, if
at all, to a value of the built-in dynamic types), after `newApiRequest`, whether it returned
an error or not, the path of the request is `p` and its body stream is read to the end. Hence,
when `p` does not start with the prefix itself, `newApiRequest` on the same request again
returns no request and the invalid-path error on `p`, and `copy()` returns nil. -/
theorem newApiRequest_rewrites_request (Unmarshal : List UInt8 → Option GoValue)
    (Marshal : JsonObject → Except String (List UInt8)) (r : Request) (p : String)
    (hpath : r.Path = "/_ah/api/" ++ p)
    (hdec : ∀ v, Unmarshal r.Body.unread = some v → v.isDecoded = true) :
    (newApiRequest Unmarshal Marshal r).request.Path = p ∧
    (newApiRequest Unmarshal Marshal r).request.Body.unread = [] ∧
    ((¬ ∃ q : String, p = "/_ah/api/" ++ q) →
      (newApiRequest Unmarshal Marshal (newApiRequest Unmarshal Marshal r).request).ar = none ∧
      (newApiRequest Unmarshal Marshal (newApiRequest Unmarshal Marshal r).request).err
        = some (.invalidPath p) ∧
      ∀ ar : ApiRequest,
        (ar.copy Unmarshal Marshal (newApiRequest Unmarshal Marshal r).request).2.2 = none) := by
  have h := newApiRequest_of_decoded Unmarshal Marshal r p hpath hdec
  refine ⟨h.1, h.2.1, ?_⟩
  intro hp
  have hnot : HasPrefix (newApiRequest Unmarshal Marshal r).request.Path _API_PREFIX = false := by
    rw [h.1]
    cases hq : HasPrefix p _API_PREFIX
    · rfl
    · exact absurd ((hasPrefix_iff _ _).mp hq) hp
  have h2 := newApiRequest_of_not_prefix Unmarshal Marshal _ hnot
  refine ⟨by rw [h2], by rw [h2, h.1], ?_⟩
  intro ar
  simp only [ApiRequest.copy]
  rw [h2]

/-- C18, on the body `{"a":1}` at path `/_ah/api/foo`: the call fails, the path is `foo`
afterwards, and a second call fails on the path. -/
theorem newApiRequest_rewrites_request_witness :
    (newApiRequest decodeJson encodeJson
      (sampleRequest "/_ah/api/foo" "\x7b\"a\":1\x7d")).request.Path = "foo" ∧
    (newApiRequest decodeJson encodeJson
      (sampleRequest "/_ah/api/foo" "\x7b\"a\":1\x7d")).request.Body.unread = [] ∧
    (newApiRequest decodeJson encodeJson (newApiRequest decodeJson encodeJson
      (sampleRequest "/_ah/api/foo" "\x7b\"a\":1\x7d")).request).err
        = some (.invalidPath "foo") :=
  ⟨(newApiRequest_rewrites_request decodeJson encodeJson
      (sampleRequest "/_ah/api/foo" "\x7b\"a\":1\x7d") "foo" rfl
      (fun v h => Option.some.inj
        (h : some (GoValue.map [("a", .float64 "1")]) = some v) ▸ rfl)).1,
    (newApiRequest_rewrites_request decodeJson encodeJson
      (sampleRequest "/_ah/api/foo" "\x7b\"a\":1\x7d") "foo" rfl
      (fun v h => Option.some.inj
        (h : some (GoValue.map [("a", .float64 "1")]) = some v) ▸ rfl)).2.1,
    ((newApiRequest_rewrites_request decodeJson encodeJson
      (sampleRequest "/_ah/api/foo" "\x7b\"a\":1\x7d") "foo" rfl
      (fun v h => Option.some.inj
        (h : some (GoValue.map [("a", .float64 "1")]) = some v) ▸ rfl)).2.2
      (fun hq => absurd ((hasPrefix_iff "foo" "/_ah/api/").mpr hq) (by decide))).2.1⟩

end Endpoint
